import Mathlib

/-!
Verification of the brewops-backend stock-ledger and payment-reconciliation
logic against its natural-language specification.

The definitions below are a shallow embedding of the JavaScript source:

* supply records, inventory rows, payments and users are rows of the
  corresponding MySQL tables (src/unnamed/part_003);
* monetary and quantity columns (DECIMAL(10,2)) are modelled as rationals;
* timestamps (millisecond epoch values as produced by JavaScript Date
  subtraction) are modelled as integers;
* each controller or model method becomes a pure function from the relevant
  table states to a result together with the updated table states.
-/

namespace BrewOps

/-- Row of the supply_records table (src/unnamed/part_003, createSupplyRecordsTable). -/
structure SupplyRecord where
  id : Nat
  supply_id : String
  supplier_id : Nat
  quantity_kg : ℚ
  remaining_quantity_kg : ℚ
  unit_price : ℚ
  total_payment : ℚ
  payment_method : String
  payment_status : String
  supply_date : Int
  supply_time : String
  notes : String
  created_at : Int
  updated_at : Int
deriving Repr, DecidableEq

/-- Row of the inventory table (src/unnamed/part_003, createInventoryTable). -/
structure InventoryRow where
  id : Nat
  inventoryid : String
  quantity : ℚ
  createdAt : Int
  updatedAt : Int
deriving Repr, DecidableEq

/-- Stable ascending sort of supply records by created_at, as performed by
allSupplyRecords.sort((a, b) => new Date(a.created_at) - new Date(b.created_at))
in createInventory (src/unnamed/part_004). -/
def sortSupplyByCreatedAt (l : List SupplyRecord) : List SupplyRecord :=
  List.insertionSort (fun a b => a.created_at ≤ b.created_at) l

/-- FIFO deduction loop of createInventory (src/unnamed/part_004 lines 295-320).
For each record in order: stop once the remainder is not positive; when the
available quantity is positive, subtract min(available, remaining) from the
record via UPDATE supply_records SET quantity_kg = ?, updated_at = NOW().
Returns the updated record list and the unfulfilled remainder. -/
def fifoDeductSupply (now : Int) : List SupplyRecord → ℚ → List SupplyRecord × ℚ
  | [], rem => ([], rem)
  | r :: rs, rem =>
    if rem ≤ 0 then (r :: rs, rem)
    else if 0 < r.quantity_kg then
      let tk := min r.quantity_kg rem
      let res := fifoDeductSupply now rs (rem - tk)
      ({ r with quantity_kg := r.quantity_kg - tk, updated_at := now } :: res.1, res.2)
    else
      let res := fifoDeductSupply now rs rem
      (r :: res.1, res.2)

/-- Result of the createInventory endpoint (src/unnamed/part_004 lines 206-379).
The missingQuantity case is the 400 response for a falsy quantity; the
insufficientSupply case is the 400 insufficient-supply-records response. -/
inductive CreateInventoryResult
  | missingQuantity
  | insufficientSupply (available required : ℚ)
  | created (lot : InventoryRow) (records : List SupplyRecord) (supplyDeducted : ℚ)
deriving Repr, DecidableEq

/-- The createInventory controller (src/unnamed/part_004 lines 206-379).
The generated inventory id string and the AUTO_INCREMENT row id are external
inputs (genId, newId); the success path of the insert-retry loop is modelled
(the retry only re-runs id generation on a uniqueness violation).  The
pre-check sums quantity_kg over all supply records; on success the lot is
inserted and the FIFO deduction runs over the records sorted by created_at. -/
def createInventory (records : List SupplyRecord) (q : ℚ) (now : Int)
    (genId : String) (newId : Nat) : CreateInventoryResult :=
  if q = 0 then .missingQuantity
  else
    let total := (records.map SupplyRecord.quantity_kg).sum
    if total < q then .insufficientSupply total q
    else
      let res := fifoDeductSupply now (sortSupplyByCreatedAt records) q
      .created ⟨newId, genId, q, now, now⟩ res.1 (q - res.2)

/-- Row of the production_data table (src/unnamed/part_003, createProductionTable). -/
structure ProductionRecord where
  id : Nat
  production_id : String
  quantity : Int
  production_date : String
  production_time : String
deriving Repr, DecidableEq

/-- Stable ascending sort of inventory rows by createdAt, as performed by
allInventory.sort((a, b) => new Date(a.createdAt) - new Date(b.createdAt)) in
createProduction (src/unnamed/part_004). -/
def sortInventoryByCreatedAt (l : List InventoryRow) : List InventoryRow :=
  List.insertionSort (fun a b => a.createdAt ≤ b.createdAt) l

/-- FIFO deduction loop of createProduction over inventory rows
(src/unnamed/part_004 lines 79-98).  InventoryModel.updateById writes the new
quantity; updatedAt advances through the ON UPDATE CURRENT_TIMESTAMP clause
of the inventory schema. -/
def fifoDeductInventory (now : Int) : List InventoryRow → ℚ → List InventoryRow × ℚ
  | [], rem => ([], rem)
  | r :: rs, rem =>
    if rem ≤ 0 then (r :: rs, rem)
    else if 0 < r.quantity then
      let tk := min r.quantity rem
      let res := fifoDeductInventory now rs (rem - tk)
      ({ r with quantity := r.quantity - tk, updatedAt := now } :: res.1, res.2)
    else
      let res := fifoDeductInventory now rs rem
      (r :: res.1, res.2)

/-- Response of the createProduction endpoint (src/unnamed/part_004 lines 15-126). -/
inductive CreateProductionResult
  | invalidInput
  | insufficientInventory (available : ℚ) (required : Int)
  | created (prod : ProductionRecord)
deriving Repr, DecidableEq

/-- The createProduction controller (src/unnamed/part_004 lines 15-126):
validates the parsed integer quantity, pre-checks the summed inventory
quantity and rejects with the insufficient-inventory error before any insert
or update; otherwise it inserts the production record and deducts FIFO from
the inventory rows sorted by createdAt.  Returns the response together with
the resulting inventory and production_data tables. -/
def createProduction (inventory : List InventoryRow) (productions : List ProductionRecord)
    (q : Int) (pdate ptime genId : String) (newId : Nat) (now : Int) :
    CreateProductionResult × List InventoryRow × List ProductionRecord :=
  if q ≤ 0 then (.invalidInput, inventory, productions)
  else
    let total := (inventory.map InventoryRow.quantity).sum
    if total < (q : ℚ) then (.insufficientInventory total q, inventory, productions)
    else
      let prod : ProductionRecord := ⟨newId, genId, q, pdate, ptime⟩
      let res := fifoDeductInventory now (sortInventoryByCreatedAt inventory) (q : ℚ)
      (.created prod, res.1, productions ++ [prod])

/-- Errors surfaced by the supply-record model operations
(src/models/supplierModel.js). -/
inductive SupplyError
  | notFound
  | editWindowExpired
  | noFields
deriving Repr, DecidableEq

/-- Partial field update accepted by updateSupplyRecord
(src/models/supplierModel.js lines 262-322); the quantity key is mapped to
the quantity_kg column. -/
structure SupplyUpdate where
  quantity : Option ℚ
  unit_price : Option ℚ
  total_payment : Option ℚ
  payment_method : Option String
  payment_status : Option String
  supply_date : Option Int
  notes : Option String
deriving Repr, DecidableEq

/-- True when the update carries no field, in which case updateSupplyRecord
throws the no-fields error. -/
def SupplyUpdate.isEmpty (u : SupplyUpdate) : Bool :=
  u.quantity.isNone && u.unit_price.isNone && u.total_payment.isNone &&
  u.payment_method.isNone && u.payment_status.isNone && u.supply_date.isNone &&
  u.notes.isNone

/-- Field merge of updateSupplyRecord: only provided fields change, and
updated_at is set to NOW(). -/
def SupplyUpdate.apply (u : SupplyUpdate) (r : SupplyRecord) (now : Int) : SupplyRecord :=
  { r with
    quantity_kg := u.quantity.getD r.quantity_kg
    unit_price := u.unit_price.getD r.unit_price
    total_payment := u.total_payment.getD r.total_payment
    payment_method := u.payment_method.getD r.payment_method
    payment_status := u.payment_status.getD r.payment_status
    supply_date := u.supply_date.getD r.supply_date
    notes := u.notes.getD r.notes
    updated_at := now }

/-- Edit-window test shared by updateSupplyRecord and deleteSupplyRecord
(src/models/supplierModel.js lines 274-283 and 336-346): the difference
between now and created_at in milliseconds, divided by 1000 * 60, compared
strictly against 15. -/
def editWindowExpiredB (createdAt now : Int) : Bool :=
  decide ((15 : ℚ) < ((now - createdAt : Int) : ℚ) / (1000 * 60))

/-- updateSupplyRecord (src/models/supplierModel.js lines 262-322): look the
record up by id, enforce the 15-minute window, reject an empty field set,
then apply the partial merge. -/
def updateSupplyRecord (recs : List SupplyRecord) (rid : Nat) (u : SupplyUpdate)
    (now : Int) : Except SupplyError (List SupplyRecord) :=
  match recs.find? (fun r => r.id == rid) with
  | none => .error .notFound
  | some r =>
    if editWindowExpiredB r.created_at now then .error .editWindowExpired
    else if u.isEmpty then .error .noFields
    else .ok (recs.map (fun s => if s.id == rid then u.apply s now else s))

/-- deleteSupplyRecord (src/models/supplierModel.js lines 325-362): look the
record up by id, enforce the same 15-minute window, then delete the row. -/
def deleteSupplyRecord (recs : List SupplyRecord) (rid : Nat)
    (now : Int) : Except SupplyError (List SupplyRecord) :=
  match recs.find? (fun r => r.id == rid) with
  | none => .error .notFound
  | some r =>
    if editWindowExpiredB r.created_at now then .error .editWindowExpired
    else .ok (recs.filter (fun s => s.id != rid))

/-- Row persisted by SupplierModel.createSupplyRecord
(src/models/supplierModel.js lines 98-153) for the controller input
(SupplierController.createSupplyRecord, src/unnamed/part_004 lines 603-663).
The controller computes total_payment = quantity * unit_price; the INSERT
lists only the columns supply_id, supplier_id, quantity_kg, unit_price,
total_payment, payment_method, payment_status, supply_date, supply_time,
notes, so the remaining_quantity_kg column takes its schema default 0
(src/unnamed/part_003 line 205) and created_at, updated_at take
CURRENT_TIMESTAMP. -/
def createSupplyRecordRow (newId : Nat) (supplyId : String) (supplierId : Nat)
    (q p : ℚ) (method status : String) (sdate : Int) (stime notes : String)
    (now : Int) : SupplyRecord :=
  { id := newId, supply_id := supplyId, supplier_id := supplierId,
    quantity_kg := q, remaining_quantity_kg := 0, unit_price := p,
    total_payment := q * p, payment_method := method, payment_status := status,
    supply_date := sdate, supply_time := stime, notes := notes,
    created_at := now, updated_at := now }

/-- createSupplyRecord appends the new row to the supply_records table and
returns the persisted row. -/
def createSupplyRecord (recs : List SupplyRecord) (newId : Nat) (supplyId : String)
    (supplierId : Nat) (q p : ℚ) (method status : String) (sdate : Int)
    (stime notes : String) (now : Int) : List SupplyRecord × SupplyRecord :=
  let row := createSupplyRecordRow newId supplyId supplierId q p method status
    sdate stime notes now
  (recs ++ [row], row)

/-- Startup migration of src/unnamed/part_003 lines 318-328: set
remaining_quantity_kg = quantity_kg wherever remaining_quantity_kg = 0.
It runs at process start, not after each insert. -/
def migrationRepairRemaining (recs : List SupplyRecord) : List SupplyRecord :=
  recs.map (fun r =>
    if r.remaining_quantity_kg = 0 then { r with remaining_quantity_kg := r.quantity_kg }
    else r)

/-- Row of the users table (src/unnamed/part_003, createUsersTable plus the
bank-column migration), restricted to the columns the supplier operations
read or write. -/
structure User where
  id : Nat
  name : String
  role : String
  status : String
  supplier_id : String
  account_number : String
  created_at : Int
  updated_at : Int
deriving Repr, DecidableEq

/-- Membership of a user id in the recent subquery of deactivateOldSuppliers
(src/models/supplierModel.js lines 618-621): suppliers having a supply record
with supply_date on or after the CURDATE() - 6 MONTH cutoff. -/
def hasRecentSupply (records : List SupplyRecord) (cutoffRecent : Int) (uid : Nat) : Bool :=
  records.any (fun r => decide (cutoffRecent ≤ r.supply_date) && r.supplier_id == uid)

/-- Matching condition of the bulk UPDATE in deactivateOldSuppliers
(src/models/supplierModel.js lines 613-639): role supplier, status active,
created_at on or before the NOW() - 6 MONTH cutoff, and no recent supply
record. -/
def supplierNeedsDeactivation (records : List SupplyRecord)
    (cutoffCreated cutoffRecent : Int) (u : User) : Bool :=
  u.role == "supplier" && u.status == "active" &&
  decide (u.created_at ≤ cutoffCreated) &&
  !(hasRecentSupply records cutoffRecent u.id)

/-- deactivateOldSuppliers (src/models/supplierModel.js lines 613-639): one
conditional bulk UPDATE setting status to inactive and updated_at to NOW()
on every matching supplier; returns the updated users table and the affected
row count.  The two six-month cutoffs (against NOW() and against CURDATE())
are passed in as the corresponding instants. -/
def deactivateOldSuppliers (users : List User) (records : List SupplyRecord)
    (cutoffCreated cutoffRecent now : Int) : List User × Nat :=
  (users.map (fun u =>
      if supplierNeedsDeactivation records cutoffCreated cutoffRecent u then
        { u with status := "inactive", updated_at := now }
      else u),
   (users.filter (supplierNeedsDeactivation records cutoffCreated cutoffRecent)).length)

/-- Claim-side variant of the sweep, written from the wording of C8: a
supplier is deactivated only when created_at is STRICTLY more than six
months in the past (strict comparison against the cutoff), everything else
as in the source.  Used to compare the claim against the code. -/
def deactivateOldSuppliersClaimed (users : List User) (records : List SupplyRecord)
    (cutoffCreated cutoffRecent now : Int) : List User × Nat :=
  let cond := fun u : User =>
    u.role == "supplier" && u.status == "active" &&
    decide (u.created_at < cutoffCreated) &&
    !(hasRecentSupply records cutoffRecent u.id)
  (users.map (fun u =>
      if cond u then { u with status := "inactive", updated_at := now } else u),
   (users.filter cond).length)

/-- Decimal value of a digit string, as parseInt reads the matched SUP suffix
in generateSupplierId (src/models/supplierModel.js lines 445-447). -/
def digitsToNat (l : List Char) : Nat :=
  l.foldl (fun a c => a * 10 + (c.toNat - 48)) 0

/-- Fuel-driven decimal rendering of a natural number, least significant
digit last, mirroring the JavaScript Number.prototype.toString. -/
def natDigitsAux : Nat → Nat → List Char
  | 0, _ => []
  | fuel + 1, n =>
    if n < 10 then [Nat.digitChar n]
    else natDigitsAux fuel (n / 10) ++ [Nat.digitChar (n % 10)]

/-- Decimal digit list of a natural number. -/
def natDigits (n : Nat) : List Char := natDigitsAux (n + 1) n

/-- padStart(w, "0") of JavaScript: left-pad with zeros up to width w, never
truncating. -/
def padZeros (w : Nat) (l : List Char) : List Char :=
  List.replicate (w - l.length) '0' ++ l

/-- Candidate supplier id string SUP + nextNumber.toString().padStart(6, "0")
(src/models/supplierModel.js lines 469-472). -/
def supString (n : Nat) : String :=
  ⟨'S' :: 'U' :: 'P' :: padZeros 6 (natDigits n)⟩

/-- Test for the SQL pattern REGEXP of generateSupplierId, anchored SUP
followed by exactly six digits (src/models/supplierModel.js line 433). -/
def isSUP6 (s : String) : Bool :=
  match s.data with
  | 'S' :: 'U' :: 'P' :: ds => ds.length == 6 && ds.all Char.isDigit
  | _ => false

/-- Numeric suffix of a conforming supplier id, as extracted by the
match(/SUP(\d{6})/) and parseInt of generateSupplierId. -/
def supNum (s : String) : Nat := digitsToNat (s.data.drop 3)

/-- Maximum numeric suffix over the existing supplier ids matching the SUP
pattern, 0 when none (src/models/supplierModel.js lines 439-454). -/
def maxSupNum (ids : List String) : Nat :=
  ((ids.filter isSUP6).map supNum).foldl max 0

/-- Retry loop of generateSupplierId (src/models/supplierModel.js lines
465-487): try SUP(base), SUP(base+1), ... against the existence check until
an unused id is found, giving up after fuel attempts (the source uses 10). -/
def findFreeSupplierId (ids : List String) : Nat → Nat → Option Nat
  | _, 0 => none
  | base, fuel + 1 =>
    if supString base ∈ ids then findFreeSupplierId ids (base + 1) fuel
    else some base

/-- generateSupplierId (src/models/supplierModel.js lines 425-511): scan the
existing supplier ids for the largest conforming suffix, then probe
max+1 .. max+10 against the existence check; when all ten probes are taken
the thrown error is caught and the fallback SUP + last-six-digits of the
epoch-millisecond timestamp is returned. -/
def generateSupplierId (ids : List String) (nowMs : Nat) : String :=
  match findFreeSupplierId ids (maxSupNum ids + 1) 10 with
  | some n => supString n
  | none =>
    ⟨'S' :: 'U' :: 'P' :: (natDigits nowMs).drop ((natDigits nowMs).length - 6)⟩

/-- Row of the payments table (src/unnamed/part_003, createPaymentsTable),
restricted to the columns read by the reconciler. -/
structure Payment where
  id : Nat
  payment_id : String
  supply_record_id : Nat
  supplier_id : Nat
  amount : ℚ
  currency : String
  payment_method : String
  payment_status : String
  payment_date : Option Int
  created_at : Int
deriving Repr, DecidableEq

/-- Filter shape accepted by findAllPayments and getPaymentStatistics
(src/unnamed/part_001).  A falsy filters.limit in the source means no limit,
modelled by none.  Date filters compare DATE(...) truncations. -/
structure Filters where
  supplier_id : Option Nat
  date_from : Option Int
  date_to : Option Int
  search : Option String
  limit : Option Nat
deriving Repr, DecidableEq

/-- Calendar-day truncation DATE(ts) of an epoch-millisecond timestamp,
modelled as the floor epoch-day index. -/
def dateOf (ts : Int) : Int := ts.fdiv 86400000

/-- SQL LIKE with wildcards on both sides: the pattern occurs as a
substring. -/
def likeContains (pat s : String) : Bool :=
  decide (List.IsInfix pat.data s.data)

/-- Name of the LEFT JOINed users row for a supplier id, none when no user
matches. -/
def lookupName (users : List User) (sid : Nat) : Option String :=
  (users.find? (fun u => u.id == sid)).map User.name

/-- Row shape of the combined ledger produced by findAllPayments
(src/unnamed/part_001 lines 345-471): real payment rows carry their ids,
synthetic supply-record rows carry NULL id and payment_id. -/
structure LedgerEntry where
  pid : Option Nat
  payment_id : Option String
  supply_record_id : Nat
  supplier_id : Nat
  amount : ℚ
  currency : String
  payment_method : String
  payment_status : String
  supplier_name : Option String
  created_at : Int
  payment_date : Option Int
  source : String
deriving Repr, DecidableEq

/-- WHERE clauses of the payments query of findAllPayments
(src/unnamed/part_001 lines 366-384): supplier, DATE(created_at) range, and
search over payment_id or joined supplier name. -/
def paymentMatches (users : List User) (f : Filters) (p : Payment) : Bool :=
  (match f.supplier_id with
   | none => true
   | some sid => p.supplier_id == sid) &&
  (match f.date_from with
   | none => true
   | some d => decide (d ≤ dateOf p.created_at)) &&
  (match f.date_to with
   | none => true
   | some d => decide (dateOf p.created_at ≤ d)) &&
  (match f.search with
   | none => true
   | some term =>
     likeContains term p.payment_id ||
     (match lookupName users p.supplier_id with
      | some nm => likeContains term nm
      | none => false))

/-- WHERE clauses of the supply-record query of findAllPayments
(src/unnamed/part_001 lines 426-443): supplier, DATE(supply_date) range, and
search over supply_id or joined supplier name. -/
def srMatches (users : List User) (f : Filters) (sr : SupplyRecord) : Bool :=
  (match f.supplier_id with
   | none => true
   | some sid => sr.supplier_id == sid) &&
  (match f.date_from with
   | none => true
   | some d => decide (d ≤ dateOf sr.supply_date)) &&
  (match f.date_to with
   | none => true
   | some d => decide (dateOf sr.supply_date ≤ d)) &&
  (match f.search with
   | none => true
   | some term =>
     likeContains term sr.supply_id ||
     (match lookupName users sr.supplier_id with
      | some nm => likeContains term nm
      | none => false))

/-- Base WHERE clause of the synthetic query (src/unnamed/part_001 lines
422-423): payment_status is not paid AND NOT EXISTS a payments row
referencing the record; the NOT EXISTS subquery ranges over the whole
payments table, unfiltered. -/
def srPendingBase (payments : List Payment) (sr : SupplyRecord) : Bool :=
  sr.payment_status != "paid" &&
  !(payments.any (fun p => p.supply_record_id == sr.id))

/-- Ledger entry built from a real payments row, tagged source payment. -/
def paymentEntry (users : List User) (p : Payment) : LedgerEntry :=
  { pid := some p.id, payment_id := some p.payment_id,
    supply_record_id := p.supply_record_id, supplier_id := p.supplier_id,
    amount := p.amount, currency := p.currency,
    payment_method := p.payment_method, payment_status := p.payment_status,
    supplier_name := lookupName users p.supplier_id,
    created_at := p.created_at, payment_date := p.payment_date,
    source := "payment" }

/-- Synthetic pending ledger entry built from an unpaid supply record
(src/unnamed/part_001 lines 397-424), tagged source supply_record: amount is
total_payment and the status is completed when paid, else pending. -/
def srPendingEntry (users : List User) (sr : SupplyRecord) : LedgerEntry :=
  { pid := none, payment_id := none,
    supply_record_id := sr.id, supplier_id := sr.supplier_id,
    amount := sr.total_payment, currency := "LKR",
    payment_method := sr.payment_method,
    payment_status := if sr.payment_status == "paid" then "completed" else "pending",
    supplier_name := lookupName users sr.supplier_id,
    created_at := sr.created_at, payment_date := none,
    source := "supply_record" }

/-- LIMIT clause application: none means no limit. -/
def applyLimit (lim : Option Nat) (l : List LedgerEntry) : List LedgerEntry :=
  match lim with
  | none => l
  | some k => l.take k

/-- ORDER BY created_at DESC over payments rows. -/
def sortPaymentsDesc (l : List Payment) : List Payment :=
  List.insertionSort (fun a b => b.created_at ≤ a.created_at) l

/-- ORDER BY created_at DESC over supply records. -/
def sortSupplyDesc (l : List SupplyRecord) : List SupplyRecord :=
  List.insertionSort (fun a b => b.created_at ≤ a.created_at) l

/-- Effective timestamp of the final JavaScript comparator
(a.created_at || a.payment_date || 0): created_at unless it is the falsy 0,
then payment_date, then 0. -/
def effectiveTs (e : LedgerEntry) : Int :=
  if e.created_at ≠ 0 then e.created_at else e.payment_date.getD 0

/-- Final descending in-memory sort of the combined ledger. -/
def sortEntriesDesc (l : List LedgerEntry) : List LedgerEntry :=
  List.insertionSort (fun a b => effectiveTs b ≤ effectiveTs a) l

/-- findAllPayments (src/unnamed/part_001 lines 345-471): the filtered
payments query and the filtered synthetic supply-record query, each ordered
descending and limited, concatenated, sorted descending by effective
timestamp, and limited again. -/
def findAllPayments (payments : List Payment) (records : List SupplyRecord)
    (users : List User) (f : Filters) : List LedgerEntry :=
  let pRows := applyLimit f.limit
    ((sortPaymentsDesc (payments.filter (paymentMatches users f))).map (paymentEntry users))
  let srRows := applyLimit f.limit
    ((sortSupplyDesc (records.filter
        (fun sr => srPendingBase payments sr && srMatches users f sr))).map
      (srPendingEntry users))
  applyLimit f.limit (sortEntriesDesc (pRows ++ srRows))

/-- Aggregate row returned by getPaymentStatistics
(src/unnamed/part_001 lines 557-687), after the numeric coercion and the
addition-merge of the payments aggregate with the supply-records
aggregate. -/
structure PaymentStats where
  total_payments : Nat
  total_completed_amount : ℚ
  total_pending_amount : ℚ
  total_failed_amount : ℚ
  completed_count : Nat
  pending_count : Nat
  failed_count : Nat
  avg_payment_amount : Option ℚ
deriving Repr, DecidableEq

/-- WHERE clauses of the payments aggregate of getPaymentStatistics
(src/unnamed/part_001 lines 574-586): date range on DATE(created_at) and
supplier; no search clause. -/
def paymentStatMatches (f : Filters) (p : Payment) : Bool :=
  (match f.date_from with
   | none => true
   | some d => decide (d ≤ dateOf p.created_at)) &&
  (match f.date_to with
   | none => true
   | some d => decide (dateOf p.created_at ≤ d)) &&
  (match f.supplier_id with
   | none => true
   | some sid => p.supplier_id == sid)

/-- WHERE clauses of the supply-records aggregate of getPaymentStatistics
(src/unnamed/part_001 lines 612-624): date range on DATE(supply_date) and
supplier; note there is no NOT EXISTS exclusion here. -/
def srStatMatches (f : Filters) (sr : SupplyRecord) : Bool :=
  (match f.date_from with
   | none => true
   | some d => decide (d ≤ dateOf sr.supply_date)) &&
  (match f.date_to with
   | none => true
   | some d => decide (dateOf sr.supply_date ≤ d)) &&
  (match f.supplier_id with
   | none => true
   | some sid => sr.supplier_id == sid)

/-- getPaymentStatistics (src/unnamed/part_001 lines 557-687): the payments
aggregate and the supply-records aggregate are computed independently and
merged by addition; the paid supply records contribute to the completed
totals whether or not a payments row references them, and the average is
taken over completed payments rows only. -/
def getPaymentStatistics (payments : List Payment) (records : List SupplyRecord)
    (f : Filters) : PaymentStats :=
  let ps := payments.filter (paymentStatMatches f)
  let srs := records.filter (srStatMatches f)
  let pCompleted := (ps.filter (fun p => p.payment_status == "completed"))
  let pPending := (ps.filter (fun p => p.payment_status == "pending"))
  let pFailed := (ps.filter (fun p => p.payment_status == "failed"))
  let srPaid := (srs.filter (fun sr => sr.payment_status == "paid"))
  let srUnpaid := (srs.filter (fun sr => sr.payment_status != "paid"))
  { total_payments := ps.length + srUnpaid.length,
    total_completed_amount :=
      (pCompleted.map Payment.amount).sum + (srPaid.map SupplyRecord.total_payment).sum,
    total_pending_amount :=
      (pPending.map Payment.amount).sum + (srUnpaid.map SupplyRecord.total_payment).sum,
    total_failed_amount := (pFailed.map Payment.amount).sum,
    completed_count := pCompleted.length + srPaid.length,
    pending_count := pPending.length + srUnpaid.length,
    failed_count := pFailed.length,
    avg_payment_amount :=
      if pCompleted.length = 0 then none
      else some ((pCompleted.map Payment.amount).sum / pCompleted.length) }

/-- JavaScript String.prototype.slice(-k): the last min(k, length)
characters. -/
def strSliceLast (k : Nat) (s : String) : String :=
  ⟨s.data.drop (s.data.length - k)⟩

/-- Account-number masking applied to every returned supplier row
(src/models/supplierModel.js lines 31-34): when the account number is
truthy, replace it with *** plus its last four characters. -/
def maskUser (u : User) : User :=
  if u.account_number != "" then
    { u with account_number := "***" ++ strSliceLast 4 u.account_number }
  else u

/-- Supplier ids visible to the generator: the supplier_id column of every
role supplier row (the existence check of supplierIdExists,
src/models/supplierModel.js lines 514-525). -/
def supplierIdsOf (users : List User) : List String :=
  (users.filter (fun u => u.role == "supplier")).map User.supplier_id

/-- Descending created_at order of the supplier listing
(src/models/supplierModel.js line 12). -/
def sortUsersDesc (l : List User) : List User :=
  List.insertionSort (fun a b => b.created_at ≤ a.created_at) l

/-- Repair loop of SupplierModel.findAll (src/models/supplierModel.js lines
15-35): walk the selected rows; for a row with a missing or empty
supplier_id, generate a fresh id from the current table, UPDATE users SET
supplier_id = ? WHERE id = ? AND role = supplier (updated_at advances
through ON UPDATE CURRENT_TIMESTAMP), and return the row carrying the new
id; finally mask the account number of every returned row. -/
def findAllRepair (t : Nat) (tnow : Int) :
    List User → List User → List User × List User
  | table, [] => (table, [])
  | table, row :: rows =>
    if row.supplier_id == "" then
      let newId := generateSupplierId (supplierIdsOf table) t
      let table' := table.map (fun u =>
        if u.id == row.id && u.role == "supplier" then
          { u with supplier_id := newId, updated_at := tnow }
        else u)
      let rest := findAllRepair t tnow table' rows
      (rest.1, maskUser { row with supplier_id := newId } :: rest.2)
    else
      let rest := findAllRepair t tnow table rows
      (rest.1, maskUser row :: rest.2)

/-- SupplierModel.findAll (src/models/supplierModel.js lines 5-42): select
the supplier rows ordered by created_at descending, then run the repair
loop against the users table. -/
def findAll (users : List User) (t : Nat) (tnow : Int) :
    List User × List User :=
  findAllRepair t tnow users
    (sortUsersDesc (users.filter (fun u => u.role == "supplier")))

/-- Candidate sequence of generateSupplyId (src/models/supplierModel.js
lines 387-408): the timestamp-derived base id, then base-01, base-02, ...
with the counter zero-padded to at least two digits. -/
def supplyIdCandidate (base : String) : Nat → String
  | 0 => base
  | k + 1 => base ++ "-" ++ ⟨padZeros 2 (natDigits (k + 1))⟩

/-- Probe loop of generateSupplyId over the candidate sequence.  The source
loop is unbounded; it stops at the first candidate missing from the
existing supply ids.  Distinct candidates mean at most existing.length + 1
probes can ever be needed, which is the fuel the model provides; none marks
the exhaustion case that corresponds to the source looping without
progress. -/
def genSupplyIdAux (existing : List String) (base : String) :
    Nat → Nat → Option String
  | _, 0 => none
  | k, fuel + 1 =>
    if supplyIdCandidate base k ∈ existing then
      genSupplyIdAux existing base (k + 1) fuel
    else some (supplyIdCandidate base k)

/-- generateSupplyId (src/models/supplierModel.js lines 387-408) against a
given set of existing supply ids, the date-derived base string passed in. -/
def generateSupplyId (existing : List String) (base : String) : Option String :=
  genSupplyIdAux existing base 0 (existing.length + 1)

/-- Supply ids currently present in the supply_records table, as tested by
supplyIdExists (src/models/supplierModel.js lines 411-422). -/
def supplyIdsOf (recs : List SupplyRecord) : List String :=
  recs.map SupplyRecord.supply_id

/-- Repair loop of findAllSupplyRecords (src/models/supplierModel.js lines
170-181): for every selected row without a supply_id, generate a fresh id
and UPDATE supply_records SET supply_id = ? WHERE id = ? (updated_at
advances through ON UPDATE CURRENT_TIMESTAMP); the returned row carries the
new id.  Returns none when a generation probe budget is exhausted. -/
def findAllSupplyRepair (base : String) (tnow : Int) :
    List SupplyRecord → List SupplyRecord →
      Option (List SupplyRecord × List SupplyRecord)
  | table, [] => some (table, [])
  | table, row :: rows =>
    if row.supply_id == "" then
      match generateSupplyId (supplyIdsOf table) base with
      | none => none
      | some newId =>
        let table' := table.map (fun r =>
          if r.id == row.id then { r with supply_id := newId, updated_at := tnow }
          else r)
        match findAllSupplyRepair base tnow table' rows with
        | none => none
        | some rest => some (rest.1, { row with supply_id := newId } :: rest.2)
    else
      match findAllSupplyRepair base tnow table rows with
      | none => none
      | some rest => some (rest.1, row :: rest.2)

/-- SupplierModel.findAllSupplyRecords (src/models/supplierModel.js lines
156-188): select all supply records ordered by created_at descending (the
joined supplier columns are not modelled), then run the supply-id repair
loop against the table. -/
def findAllSupplyRecords (recs : List SupplyRecord) (base : String)
    (tnow : Int) : Option (List SupplyRecord × List SupplyRecord) :=
  findAllSupplyRepair base tnow recs (sortSupplyDesc recs)

/-- Fixture supplier row with an empty supplier_id, used by witness
theorems. -/
def wUserNoId : User :=
  ⟨1, "Bob", "supplier", "active", "", "", 0, 0⟩

/-- Fixture supply record with an empty supply_id, used by witness
theorems. -/
def wRecNoId : SupplyRecord :=
  ⟨3, "", 2, 100, 0, 50, 5000, "spot", "unpaid", 0, "09:00:00", "", 0, 0⟩

/-- Fixture payment used by witness theorems: a completed payment of 100
referencing supply record 1. -/
def wPay : Payment :=
  ⟨1, "PAY_1700000000000_001", 1, 2, 100, "LKR", "cash", "completed", none, 10⟩

/-- Fixture paid supply record used by witness theorems, referenced by the
fixture payment. -/
def wRecPaid : SupplyRecord :=
  ⟨1, "SUP-20240101-0900", 2, 2, 0, 50, 100, "spot", "paid", 0, "09:00:00", "", 0, 0⟩

/-- Fixture empty filter set. -/
def noFilters : Filters := ⟨none, none, none, none, none⟩

/-- Fixture supplier user used by witness theorems: active supplier created
exactly at the six-month cutoff instant. -/
def wUser : User :=
  ⟨10, "Alice", "supplier", "active", "SUP000001", "12345678", 0, 0⟩

/-- Fixture supply record used by witness theorems: quantity 100 kg at unit
price 50, as in the scenario of spec section 8. -/
def wRec : SupplyRecord :=
  ⟨1, "SUP-20240101-0900", 2, 100, 0, 50, 5000, "spot", "unpaid", 0, "09:00:00", "", 0, 0⟩

/-- Fixture inventory row used by witness theorems. -/
def wInv : InventoryRow :=
  ⟨1, "INV-20240101-0900-00", 100, 0, 0⟩

/-- Fixture partial update used by witness theorems: mark the record paid. -/
def wUpd : SupplyUpdate :=
  ⟨none, none, none, none, some "paid", none, none⟩

/-! ### Theorems -/

theorem fifoDeductSupply_snd_eq_zero (now : Int) :
    ∀ (l : List SupplyRecord) (rem : ℚ), (∀ r ∈ l, 0 ≤ r.quantity_kg) →
      0 ≤ rem → rem ≤ (l.map SupplyRecord.quantity_kg).sum →
      (fifoDeductSupply now l rem).2 = 0 := by
  intro l
  induction l with
  | nil =>
    intro rem _ h0 hle
    simp only [List.map_nil, List.sum_nil] at hle
    simp [fifoDeductSupply, le_antisymm hle h0]
  | cons r rs ih =>
    intro rem hnn h0 hle
    by_cases hrem : rem ≤ 0
    · simp only [fifoDeductSupply, if_pos hrem]
      exact le_antisymm hrem h0
    · push_neg at hrem
      simp only [List.map_cons, List.sum_cons] at hle
      have hnn' : ∀ x ∈ rs, 0 ≤ x.quantity_kg := fun x hx => hnn x (List.mem_cons_of_mem _ hx)
      by_cases hav : 0 < r.quantity_kg
      · simp only [fifoDeductSupply, if_neg (not_le.mpr hrem), if_pos hav]
        apply ih _ hnn'
        · have := min_le_right r.quantity_kg rem
          linarith
        · rcases le_total r.quantity_kg rem with h | h
          · rw [min_eq_left h]; linarith
          · rw [min_eq_right h]
            simpa using List.sum_le_sum (fun x hx => hnn' x (by simpa using hx))
      · have hz : r.quantity_kg = 0 :=
          le_antisymm (not_lt.mp hav) (hnn r (List.mem_cons_self _ _))
        simp only [fifoDeductSupply, if_neg (not_le.mpr hrem), if_neg hav]
        exact ih rem hnn' h0 (by linarith)

theorem fifoDeductSupply_sum (now : Int) :
    ∀ (l : List SupplyRecord) (rem : ℚ),
      ((fifoDeductSupply now l rem).1.map SupplyRecord.quantity_kg).sum
        = (l.map SupplyRecord.quantity_kg).sum - (rem - (fifoDeductSupply now l rem).2) := by
  intro l
  induction l with
  | nil => intro rem; simp [fifoDeductSupply]
  | cons r rs ih =>
    intro rem
    by_cases hrem : rem ≤ 0
    · simp [fifoDeductSupply, if_pos hrem]
    · by_cases hav : 0 < r.quantity_kg
      · simp only [fifoDeductSupply, if_neg hrem, if_pos hav, List.map_cons, List.sum_cons]
        have := ih (rem - min r.quantity_kg rem)
        linarith
      · simp only [fifoDeductSupply, if_neg hrem, if_neg hav, List.map_cons, List.sum_cons]
        have := ih rem
        linarith

theorem fifoDeductSupply_nonneg (now : Int) :
    ∀ (l : List SupplyRecord) (rem : ℚ), (∀ r ∈ l, 0 ≤ r.quantity_kg) →
      ∀ r' ∈ (fifoDeductSupply now l rem).1, 0 ≤ r'.quantity_kg := by
  intro l
  induction l with
  | nil => intro rem _ r' hr'; simp [fifoDeductSupply] at hr'
  | cons r rs ih =>
    intro rem hnn r' hr'
    have hnn' : ∀ x ∈ rs, 0 ≤ x.quantity_kg := fun x hx => hnn x (List.mem_cons_of_mem _ hx)
    by_cases hrem : rem ≤ 0
    · simp only [fifoDeductSupply, if_pos hrem] at hr'
      exact hnn r' hr'
    · by_cases hav : 0 < r.quantity_kg
      · simp only [fifoDeductSupply, if_neg hrem, if_pos hav, List.mem_cons] at hr'
        rcases hr' with h | h
        · subst h
          simp only [sub_nonneg]
          exact min_le_left _ _
        · exact ih _ hnn' r' h
      · simp only [fifoDeductSupply, if_neg hrem, if_neg hav, List.mem_cons] at hr'
        rcases hr' with h | h
        · subst h; exact hnn r' (List.mem_cons_self _ _)
        · exact ih _ hnn' r' h

theorem fifoDeductSupply_frame (now : Int) :
    ∀ (l : List SupplyRecord) (rem : ℚ),
      List.Forall₂ (fun r r' =>
        r'.id = r.id ∧ r'.supply_id = r.supply_id ∧ r'.supplier_id = r.supplier_id ∧
        r'.remaining_quantity_kg = r.remaining_quantity_kg ∧ r'.unit_price = r.unit_price ∧
        r'.total_payment = r.total_payment ∧ r'.payment_method = r.payment_method ∧
        r'.payment_status = r.payment_status ∧ r'.supply_date = r.supply_date ∧
        r'.supply_time = r.supply_time ∧ r'.notes = r.notes ∧ r'.created_at = r.created_at ∧
        r'.quantity_kg ≤ r.quantity_kg ∧
        (r'.quantity_kg = r.quantity_kg ∧ r'.updated_at = r.updated_at ∨ r'.updated_at = now))
        l (fifoDeductSupply now l rem).1 := by
  intro l
  induction l with
  | nil => intro rem; simp [fifoDeductSupply]
  | cons r rs ih =>
    intro rem
    by_cases hrem : rem ≤ 0
    · simp only [fifoDeductSupply, if_pos hrem]
      exact List.forall₂_same.mpr fun x _ => by simp
    · by_cases hav : 0 < r.quantity_kg
      · simp only [fifoDeductSupply, if_neg hrem, if_pos hav]
        refine List.Forall₂.cons ?_ (ih _)
        refine ⟨rfl, rfl, rfl, rfl, rfl, rfl, rfl, rfl, rfl, rfl, rfl, rfl, ?_, Or.inr rfl⟩
        have : 0 ≤ min r.quantity_kg rem := le_min (le_of_lt hav) (le_of_not_le hrem)
        simp only
        linarith
      · simp only [fifoDeductSupply, if_neg hrem, if_neg hav]
        exact List.Forall₂.cons (by simp) (ih _)

/-- C1: for an inventory-creation request of quantity q (a positive quantity,
per the operation surface of the spec): if the sum of quantity_kg over the
supply records is below q, createInventory rejects with the
insufficient-supply error; otherwise it creates the lot and runs the FIFO
deduction over the records in created_at-ascending order, the total deducted
equals q, no record quantity becomes negative, and the records lose exactly q
in total. -/
theorem C1_createInventory_fifo (records : List SupplyRecord) (q : ℚ) (now : Int)
    (genId : String) (newId : Nat) (hq : 0 < q)
    (hnn : ∀ r ∈ records, 0 ≤ r.quantity_kg) :
    ((records.map SupplyRecord.quantity_kg).sum < q →
        createInventory records q now genId newId
          = .insufficientSupply (records.map SupplyRecord.quantity_kg).sum q) ∧
    (q ≤ (records.map SupplyRecord.quantity_kg).sum →
        createInventory records q now genId newId
          = .created ⟨newId, genId, q, now, now⟩
              (fifoDeductSupply now (sortSupplyByCreatedAt records) q).1 q ∧
        (sortSupplyByCreatedAt records).Perm records ∧
        List.Sorted (fun a b => a.created_at ≤ b.created_at) (sortSupplyByCreatedAt records) ∧
        (∀ r' ∈ (fifoDeductSupply now (sortSupplyByCreatedAt records) q).1,
          0 ≤ r'.quantity_kg) ∧
        ((fifoDeductSupply now (sortSupplyByCreatedAt records) q).1.map
            SupplyRecord.quantity_kg).sum
          = (records.map SupplyRecord.quantity_kg).sum - q) := by
  constructor
  · intro hlt
    simp only [createInventory, if_neg hq.ne', if_pos hlt]
  · intro hge
    have hperm : (sortSupplyByCreatedAt records).Perm records :=
      List.perm_insertionSort _ records
    have hnns : ∀ r ∈ sortSupplyByCreatedAt records, 0 ≤ r.quantity_kg :=
      fun r hr => hnn r (hperm.mem_iff.mp hr)
    have hsum : ((sortSupplyByCreatedAt records).map SupplyRecord.quantity_kg).sum
        = (records.map SupplyRecord.quantity_kg).sum := (hperm.map _).sum_eq
    have hrem := fifoDeductSupply_snd_eq_zero now (sortSupplyByCreatedAt records) q
      hnns (le_of_lt hq) (by rw [hsum]; exact hge)
    refine ⟨?_, hperm, ?_, fifoDeductSupply_nonneg now _ q hnns, ?_⟩
    · simp only [createInventory, if_neg hq.ne', if_neg (not_lt.mpr hge), hrem, sub_zero]
    · haveI : IsTotal SupplyRecord (fun a b => a.created_at ≤ b.created_at) :=
        ⟨fun a b => Int.le_total _ _⟩
      haveI : IsTrans SupplyRecord (fun a b => a.created_at ≤ b.created_at) :=
        ⟨fun _ _ _ hab hbc => le_trans hab hbc⟩
      exact List.sorted_insertionSort _ _
    · rw [fifoDeductSupply_sum, hrem, hsum, sub_zero]

/-- Witness for C1 at a concrete input: one supply record of 100 kg, request
of 60 kg, leaving 40 kg in the record and deducting exactly 60. -/
theorem C1_createInventory_witness :
    createInventory [wRec] 60 5 "INV-20240102-0900-07" 9
      = .created ⟨9, "INV-20240102-0900-07", 60, 5, 5⟩
          [{ wRec with quantity_kg := 40, updated_at := 5 }] 60 := by
  have h := (C1_createInventory_fifo [wRec] 60 5 "INV-20240102-0900-07" 9
    (by norm_num) (by intro r hr; simp at hr; subst hr; norm_num [wRec])).2
    (by norm_num [wRec])
  refine h.1.trans ?_
  norm_num [fifoDeductSupply, sortSupplyByCreatedAt, List.insertionSort, List.orderedInsert,
    wRec, min_def]

/-- C10: the FIFO deduction of inventory creation touches only the
quantity_kg and updated_at columns of each supply record; in particular a
record whose quantity strictly decreased (with positive unit price and a
consistent total_payment beforehand) no longer satisfies
total_payment = quantity_kg * unit_price. -/
theorem C10_fifoDeduct_frame (now : Int) (l : List SupplyRecord) (rem : ℚ) :
    List.Forall₂ (fun r r' =>
      r'.id = r.id ∧ r'.supply_id = r.supply_id ∧ r'.supplier_id = r.supplier_id ∧
      r'.remaining_quantity_kg = r.remaining_quantity_kg ∧ r'.unit_price = r.unit_price ∧
      r'.total_payment = r.total_payment ∧ r'.payment_method = r.payment_method ∧
      r'.payment_status = r.payment_status ∧ r'.supply_date = r.supply_date ∧
      r'.supply_time = r.supply_time ∧ r'.notes = r.notes ∧ r'.created_at = r.created_at ∧
      (r'.quantity_kg = r.quantity_kg ∧ r'.updated_at = r.updated_at ∨ r'.updated_at = now) ∧
      (0 < r.unit_price → r'.quantity_kg < r.quantity_kg →
        r.total_payment = r.quantity_kg * r.unit_price →
        r'.total_payment ≠ r'.quantity_kg * r'.unit_price))
      l (fifoDeductSupply now l rem).1 := by
  have hframe := fifoDeductSupply_frame now l rem
  refine hframe.imp ?_
  rintro r r' ⟨h1, h2, h3, h4, h5, h6, h7, h8, h9, h9t, h10, h11, hle, hupd⟩
  refine ⟨h1, h2, h3, h4, h5, h6, h7, h8, h9, h9t, h10, h11, hupd, ?_⟩
  intro hp hlt htot
  rw [h6, htot, h5]
  have := mul_lt_mul_of_pos_right hlt hp
  exact (ne_of_gt this)

/-- Witness for C10 at a concrete input: partial deduction of 60 kg from a
100 kg record at unit price 50 leaves total_payment 5000 while
quantity_kg * unit_price becomes 2000. -/
theorem C10_fifoDeduct_frame_witness :
    List.Forall₂ (fun r r' =>
      r'.id = r.id ∧ r'.supply_id = r.supply_id ∧ r'.supplier_id = r.supplier_id ∧
      r'.remaining_quantity_kg = r.remaining_quantity_kg ∧ r'.unit_price = r.unit_price ∧
      r'.total_payment = r.total_payment ∧ r'.payment_method = r.payment_method ∧
      r'.payment_status = r.payment_status ∧ r'.supply_date = r.supply_date ∧
      r'.supply_time = r.supply_time ∧ r'.notes = r.notes ∧ r'.created_at = r.created_at ∧
      (r'.quantity_kg = r.quantity_kg ∧ r'.updated_at = r.updated_at ∨ r'.updated_at = 5) ∧
      (0 < r.unit_price → r'.quantity_kg < r.quantity_kg →
        r.total_payment = r.quantity_kg * r.unit_price →
        r'.total_payment ≠ r'.quantity_kg * r'.unit_price))
      [wRec] (fifoDeductSupply 5 [wRec] 60).1 :=
  C10_fifoDeduct_frame 5 [wRec] 60

theorem fifoDeductInventory_snd_eq_zero (now : Int) :
    ∀ (l : List InventoryRow) (rem : ℚ), (∀ r ∈ l, 0 ≤ r.quantity) →
      0 ≤ rem → rem ≤ (l.map InventoryRow.quantity).sum →
      (fifoDeductInventory now l rem).2 = 0 := by
  intro l
  induction l with
  | nil =>
    intro rem _ h0 hle
    simp only [List.map_nil, List.sum_nil] at hle
    simp [fifoDeductInventory, le_antisymm hle h0]
  | cons r rs ih =>
    intro rem hnn h0 hle
    by_cases hrem : rem ≤ 0
    · simp only [fifoDeductInventory, if_pos hrem]
      exact le_antisymm hrem h0
    · push_neg at hrem
      simp only [List.map_cons, List.sum_cons] at hle
      have hnn' : ∀ x ∈ rs, 0 ≤ x.quantity := fun x hx => hnn x (List.mem_cons_of_mem _ hx)
      by_cases hav : 0 < r.quantity
      · simp only [fifoDeductInventory, if_neg (not_le.mpr hrem), if_pos hav]
        apply ih _ hnn'
        · have := min_le_right r.quantity rem
          linarith
        · rcases le_total r.quantity rem with h | h
          · rw [min_eq_left h]; linarith
          · rw [min_eq_right h]
            simpa using List.sum_le_sum (fun x hx => hnn' x (by simpa using hx))
      · have hz : r.quantity = 0 :=
          le_antisymm (not_lt.mp hav) (hnn r (List.mem_cons_self _ _))
        simp only [fifoDeductInventory, if_neg (not_le.mpr hrem), if_neg hav]
        exact ih rem hnn' h0 (by linarith)

theorem fifoDeductInventory_sum (now : Int) :
    ∀ (l : List InventoryRow) (rem : ℚ),
      ((fifoDeductInventory now l rem).1.map InventoryRow.quantity).sum
        = (l.map InventoryRow.quantity).sum - (rem - (fifoDeductInventory now l rem).2) := by
  intro l
  induction l with
  | nil => intro rem; simp [fifoDeductInventory]
  | cons r rs ih =>
    intro rem
    by_cases hrem : rem ≤ 0
    · simp [fifoDeductInventory, if_pos hrem]
    · by_cases hav : 0 < r.quantity
      · simp only [fifoDeductInventory, if_neg hrem, if_pos hav, List.map_cons, List.sum_cons]
        have := ih (rem - min r.quantity rem)
        linarith
      · simp only [fifoDeductInventory, if_neg hrem, if_neg hav, List.map_cons, List.sum_cons]
        have := ih rem
        linarith

theorem fifoDeductInventory_nonneg (now : Int) :
    ∀ (l : List InventoryRow) (rem : ℚ), (∀ r ∈ l, 0 ≤ r.quantity) →
      ∀ r' ∈ (fifoDeductInventory now l rem).1, 0 ≤ r'.quantity := by
  intro l
  induction l with
  | nil => intro rem _ r' hr'; simp [fifoDeductInventory] at hr'
  | cons r rs ih =>
    intro rem hnn r' hr'
    have hnn' : ∀ x ∈ rs, 0 ≤ x.quantity := fun x hx => hnn x (List.mem_cons_of_mem _ hx)
    by_cases hrem : rem ≤ 0
    · simp only [fifoDeductInventory, if_pos hrem] at hr'
      exact hnn r' hr'
    · by_cases hav : 0 < r.quantity
      · simp only [fifoDeductInventory, if_neg hrem, if_pos hav, List.mem_cons] at hr'
        rcases hr' with h | h
        · subst h
          simp only [sub_nonneg]
          exact min_le_left _ _
        · exact ih _ hnn' r' h
      · simp only [fifoDeductInventory, if_neg hrem, if_neg hav, List.mem_cons] at hr'
        rcases hr' with h | h
        · subst h; exact hnn r' (List.mem_cons_self _ _)
        · exact ih _ hnn' r' h

/-- C2: for a production-creation request of parsed quantity q > 0: when the
total inventory quantity is below q, createProduction rejects with the
insufficient-inventory error and neither the production_data table nor the
inventory table changes; otherwise the production record is created and q is
deducted FIFO from the inventory rows in createdAt-ascending order, one lot
at a time, each lot losing min(lot.quantity, still-needed). -/
theorem C2_createProduction (inventory : List InventoryRow)
    (productions : List ProductionRecord) (q : Int) (pdate ptime genId : String)
    (newId : Nat) (now : Int) (hq : 0 < q)
    (hnn : ∀ r ∈ inventory, 0 ≤ r.quantity) :
    ((inventory.map InventoryRow.quantity).sum < (q : ℚ) →
        createProduction inventory productions q pdate ptime genId newId now
          = (.insufficientInventory (inventory.map InventoryRow.quantity).sum q,
             inventory, productions)) ∧
    ((q : ℚ) ≤ (inventory.map InventoryRow.quantity).sum →
        createProduction inventory productions q pdate ptime genId newId now
          = (.created ⟨newId, genId, q, pdate, ptime⟩,
             (fifoDeductInventory now (sortInventoryByCreatedAt inventory) (q : ℚ)).1,
             productions ++ [⟨newId, genId, q, pdate, ptime⟩]) ∧
        (sortInventoryByCreatedAt inventory).Perm inventory ∧
        List.Sorted (fun a b => a.createdAt ≤ b.createdAt)
          (sortInventoryByCreatedAt inventory) ∧
        (∀ r' ∈ (fifoDeductInventory now (sortInventoryByCreatedAt inventory) (q : ℚ)).1,
          0 ≤ r'.quantity) ∧
        ((fifoDeductInventory now (sortInventoryByCreatedAt inventory) (q : ℚ)).1.map
            InventoryRow.quantity).sum
          = (inventory.map InventoryRow.quantity).sum - q) := by
  constructor
  · intro hlt
    simp only [createProduction, if_neg (not_le.mpr hq), if_pos hlt]
  · intro hge
    have hperm : (sortInventoryByCreatedAt inventory).Perm inventory :=
      List.perm_insertionSort _ inventory
    have hnns : ∀ r ∈ sortInventoryByCreatedAt inventory, 0 ≤ r.quantity :=
      fun r hr => hnn r (hperm.mem_iff.mp hr)
    have hsum : ((sortInventoryByCreatedAt inventory).map InventoryRow.quantity).sum
        = (inventory.map InventoryRow.quantity).sum := (hperm.map _).sum_eq
    have hq0 : (0 : ℚ) ≤ (q : ℚ) := by exact_mod_cast le_of_lt hq
    have hrem := fifoDeductInventory_snd_eq_zero now (sortInventoryByCreatedAt inventory)
      (q : ℚ) hnns hq0 (by rw [hsum]; exact hge)
    refine ⟨?_, hperm, ?_, fifoDeductInventory_nonneg now _ (q : ℚ) hnns, ?_⟩
    · simp only [createProduction, if_neg (not_le.mpr hq), if_neg (not_lt.mpr hge)]
    · haveI : IsTotal InventoryRow (fun a b => a.createdAt ≤ b.createdAt) :=
        ⟨fun a b => Int.le_total _ _⟩
      haveI : IsTrans InventoryRow (fun a b => a.createdAt ≤ b.createdAt) :=
        ⟨fun _ _ _ hab hbc => le_trans hab hbc⟩
      exact List.sorted_insertionSort _ _
    · rw [fifoDeductInventory_sum, hrem, hsum, sub_zero]

/-- Witness for C2 at concrete inputs: with a single 100-kg inventory row, a
60-kg production run is created and the row drops to 40 kg, while a request
of 150 kg is rejected with the tables unchanged. -/
theorem C2_createProduction_witness :
    createProduction [wInv] [] 60 "2024-01-02" "09:00:00" "PROD-X-1" 3 7
      = (.created ⟨3, "PROD-X-1", 60, "2024-01-02", "09:00:00"⟩,
         [{ wInv with quantity := 40, updatedAt := 7 }],
         [⟨3, "PROD-X-1", 60, "2024-01-02", "09:00:00"⟩]) ∧
    createProduction [wInv] [] 150 "2024-01-02" "09:00:00" "PROD-X-2" 4 7
      = (.insufficientInventory 100 150, [wInv], []) := by
  constructor
  · have h := (C2_createProduction [wInv] [] 60 "2024-01-02" "09:00:00" "PROD-X-1" 3 7
      (by norm_num) (by intro r hr; simp at hr; subst hr; norm_num [wInv])).2
      (by norm_num [wInv])
    refine h.1.trans ?_
    norm_num [fifoDeductInventory, sortInventoryByCreatedAt, List.insertionSort,
      List.orderedInsert, wInv, min_def]
  · have h := (C2_createProduction [wInv] [] 150 "2024-01-02" "09:00:00" "PROD-X-2" 4 7
      (by norm_num) (by intro r hr; simp at hr; subst hr; norm_num [wInv])).1
      (by norm_num [wInv])
    simpa [wInv] using h

theorem editWindowExpiredB_iff (c n : Int) :
    editWindowExpiredB c n = true ↔ 900000 < n - c := by
  simp only [editWindowExpiredB, decide_eq_true_eq]
  rw [lt_div_iff₀ (by norm_num : (0 : ℚ) < 1000 * 60)]
  constructor
  · intro h
    exact_mod_cast (by linarith : (900000 : ℚ) < ((n - c : Int) : ℚ))
  · intro h
    have : (900000 : ℚ) < ((n - c : Int) : ℚ) := by exact_mod_cast h
    linarith

/-- C5 amended: updateSupplyRecord and deleteSupplyRecord fail with the
edit-window-expired error exactly when the elapsed time since created_at
strictly exceeds 15 minutes; the boundary at exactly 15 minutes 0 seconds
still succeeds (the comparison is strict), as does any earlier moment. -/
theorem C5_editWindow (recs : List SupplyRecord) (rid : Nat) (u : SupplyUpdate)
    (now : Int) (r : SupplyRecord)
    (hfind : recs.find? (fun s => s.id == rid) = some r)
    (hne : u.isEmpty = false) :
    (updateSupplyRecord recs rid u now = .error .editWindowExpired ↔
      900000 < now - r.created_at) ∧
    (deleteSupplyRecord recs rid now = .error .editWindowExpired ↔
      900000 < now - r.created_at) ∧
    (now - r.created_at ≤ 900000 →
      updateSupplyRecord recs rid u now
        = .ok (recs.map (fun s => if s.id == rid then u.apply s now else s)) ∧
      deleteSupplyRecord recs rid now = .ok (recs.filter (fun s => s.id != rid))) := by
  have hiff := editWindowExpiredB_iff r.created_at now
  by_cases hexp : editWindowExpiredB r.created_at now = true
  · have hlt := hiff.mp hexp
    refine ⟨?_, ?_, ?_⟩
    · simp only [updateSupplyRecord, hfind, hexp, if_true]
      exact ⟨fun _ => hlt, fun _ => trivial⟩
    · simp only [deleteSupplyRecord, hfind, hexp, if_true]
      exact ⟨fun _ => hlt, fun _ => trivial⟩
    · intro hle; exact absurd hlt (not_lt.mpr hle)
  · have hnlt : ¬ 900000 < now - r.created_at := fun h => hexp (hiff.mpr h)
    have hexp' : editWindowExpiredB r.created_at now = false :=
      Bool.eq_false_iff.mpr hexp
    refine ⟨?_, ?_, ?_⟩
    · simp only [updateSupplyRecord, hfind, hexp', Bool.false_eq_true, if_false, hne]
      exact ⟨fun h => absurd h (by simp), fun h => absurd h hnlt⟩
    · simp only [deleteSupplyRecord, hfind, hexp', Bool.false_eq_true, if_false]
      exact ⟨fun h => absurd h (by simp), fun h => absurd h hnlt⟩
    · intro _
      constructor
      · simp only [updateSupplyRecord, hfind, hexp', Bool.false_eq_true, if_false, hne]
      · simp only [deleteSupplyRecord, hfind, hexp', Bool.false_eq_true, if_false]

/-- Counterexample to C5 as stated: at exactly created_at + 15 minutes
(elapsed 900000 ms) both the update and the delete still succeed, whereas
the claim says the boundary is treated as expired. -/
theorem C5_counterexample :
    updateSupplyRecord [wRec] 1 wUpd 900000
      = .ok [{ wRec with payment_status := "paid", updated_at := 900000 }] ∧
    deleteSupplyRecord [wRec] 1 900000 = .ok [] := by
  constructor
  · norm_num [updateSupplyRecord, List.find?, wRec, editWindowExpiredB, wUpd,
      SupplyUpdate.isEmpty, SupplyUpdate.apply]
  · norm_num [deleteSupplyRecord, List.find?, wRec, editWindowExpiredB, List.filter]

/-- Witness for the amended C5 at concrete inputs: at elapsed 899999 ms the
edit and the delete succeed. -/
theorem C5_editWindow_witness :
    updateSupplyRecord [wRec] 1 wUpd 899999
      = .ok [{ wRec with payment_status := "paid", updated_at := 899999 }] ∧
    deleteSupplyRecord [wRec] 1 899999 = .ok [] := by
  have h := (C5_editWindow [wRec] 1 wUpd 899999 wRec
    (by norm_num [List.find?, wRec]) (by norm_num [wUpd, SupplyUpdate.isEmpty])).2.2
    (by norm_num [wRec])
  refine ⟨h.1.trans ?_, h.2.trans ?_⟩
  · norm_num [wRec, wUpd, SupplyUpdate.apply]
  · norm_num [wRec, List.filter]

/-- Counterexample to C6 as stated: after a creation with quantity 100 the
persisted row has remaining_quantity_kg = 0, not 100. -/
theorem C6_counterexample :
    (createSupplyRecord [] 7 "SUP-20240101-0900" 2 100 50 "spot" "unpaid" 0
        "09:00:00" "" 0).2.remaining_quantity_kg
      ≠ (createSupplyRecord [] 7 "SUP-20240101-0900" 2 100 50 "spot" "unpaid" 0
        "09:00:00" "" 0).2.quantity_kg := by
  norm_num [createSupplyRecord, createSupplyRecordRow]

/-- C6 amended: the persisted row stores quantity_kg = q, unit_price = p and
total_payment = q * p, but remaining_quantity_kg takes the schema default 0
because the INSERT omits that column; only the startup migration later
rewrites remaining_quantity_kg to quantity_kg. -/
theorem C6_createSupplyRecord (recs : List SupplyRecord) (newId : Nat)
    (supplyId : String) (supplierId : Nat) (q p : ℚ) (method status : String)
    (sdate : Int) (stime notes : String) (now : Int) :
    (createSupplyRecord recs newId supplyId supplierId q p method status sdate
        stime notes now).2.quantity_kg = q ∧
    (createSupplyRecord recs newId supplyId supplierId q p method status sdate
        stime notes now).2.unit_price = p ∧
    (createSupplyRecord recs newId supplyId supplierId q p method status sdate
        stime notes now).2.total_payment = q * p ∧
    (createSupplyRecord recs newId supplyId supplierId q p method status sdate
        stime notes now).2.remaining_quantity_kg = 0 ∧
    (createSupplyRecord recs newId supplyId supplierId q p method status sdate
        stime notes now).1
      = recs ++ [(createSupplyRecord recs newId supplyId supplierId q p method
          status sdate stime notes now).2] ∧
    migrationRepairRemaining
        [(createSupplyRecord recs newId supplyId supplierId q p method status
            sdate stime notes now).2]
      = [{ (createSupplyRecord recs newId supplyId supplierId q p method status
            sdate stime notes now).2 with remaining_quantity_kg := q }] := by
  refine ⟨rfl, rfl, rfl, rfl, rfl, ?_⟩
  simp [migrationRepairRemaining, createSupplyRecord, createSupplyRecordRow]

theorem supplierNeedsDeactivation_iff (records : List SupplyRecord)
    (cutoffCreated cutoffRecent : Int) (u : User) :
    supplierNeedsDeactivation records cutoffCreated cutoffRecent u = true ↔
      (u.role = "supplier" ∧ u.status = "active" ∧ u.created_at ≤ cutoffCreated ∧
       ∀ r ∈ records, cutoffRecent ≤ r.supply_date → r.supplier_id ≠ u.id) := by
  simp only [supplierNeedsDeactivation, hasRecentSupply, Bool.and_eq_true, beq_iff_eq,
    decide_eq_true_eq, Bool.not_eq_true', List.any_eq_false, Bool.and_eq_false_iff,
    decide_eq_false_iff_not, beq_eq_false_iff_ne]
  constructor
  · rintro ⟨⟨⟨h1, h2⟩, h3⟩, h4⟩
    refine ⟨h1, h2, h3, fun r hr hd hid => ?_⟩
    have h5 := h4 r hr
    tauto
  · rintro ⟨h1, h2, h3, h4⟩
    refine ⟨⟨⟨h1, h2⟩, h3⟩, fun r hr => ?_⟩
    have h5 := h4 r hr
    tauto

/-- C8 amended: deactivateOldSuppliers sets status inactive for exactly the
active suppliers whose created_at is at least six months in the past (the
boundary instant itself included, the comparison being non-strict) and who
have no supply record within the trailing six months; every other user is
unchanged, the count of deactivated suppliers is returned, and a second run
on the resulting state deactivates zero and changes nothing. -/
theorem C8_deactivateOldSuppliers (users : List User) (records : List SupplyRecord)
    (cutoffCreated cutoffRecent now now2 : Int) :
    List.Forall₂ (fun u u' =>
      ((u.role = "supplier" ∧ u.status = "active" ∧ u.created_at ≤ cutoffCreated ∧
          ∀ r ∈ records, cutoffRecent ≤ r.supply_date → r.supplier_id ≠ u.id) →
        u' = { u with status := "inactive", updated_at := now }) ∧
      (¬ (u.role = "supplier" ∧ u.status = "active" ∧ u.created_at ≤ cutoffCreated ∧
          ∀ r ∈ records, cutoffRecent ≤ r.supply_date → r.supplier_id ≠ u.id) →
        u' = u))
      users (deactivateOldSuppliers users records cutoffCreated cutoffRecent now).1 ∧
    (deactivateOldSuppliers users records cutoffCreated cutoffRecent now).2
      = (users.filter (fun u =>
          decide (u.role = "supplier" ∧ u.status = "active" ∧
            u.created_at ≤ cutoffCreated ∧
            ∀ r ∈ records, cutoffRecent ≤ r.supply_date → r.supplier_id ≠ u.id))).length ∧
    deactivateOldSuppliers
        (deactivateOldSuppliers users records cutoffCreated cutoffRecent now).1
        records cutoffCreated cutoffRecent now2
      = ((deactivateOldSuppliers users records cutoffCreated cutoffRecent now).1, 0) := by
  have hiff := supplierNeedsDeactivation_iff records cutoffCreated cutoffRecent
  refine ⟨?_, ?_, ?_⟩
  · show List.Forall₂ _ users (users.map _)
    induction users with
    | nil => exact List.Forall₂.nil
    | cons u us ih =>
      refine List.Forall₂.cons ?_ ih
      by_cases hc : supplierNeedsDeactivation records cutoffCreated cutoffRecent u = true
      · refine ⟨fun _ => ?_, fun hn => absurd ((hiff u).mp hc) hn⟩
        simp only [if_pos hc]
      · refine ⟨fun hp => absurd ((hiff u).mpr hp) hc, fun _ => ?_⟩
        simp only [if_neg hc]
  · show (users.filter _).length = _
    congr 1
    apply List.filter_congr
    intro u _
    by_cases hc : supplierNeedsDeactivation records cutoffCreated cutoffRecent u = true
    · rw [hc, eq_comm, decide_eq_true_eq]
      exact (hiff u).mp hc
    · have hf : supplierNeedsDeactivation records cutoffCreated cutoffRecent u = false :=
        Bool.eq_false_iff.mpr hc
      rw [hf, eq_comm, decide_eq_false_iff_not]
      exact fun hp => hc ((hiff u).mpr hp)
  · have hafter : ∀ u : User,
        supplierNeedsDeactivation records cutoffCreated cutoffRecent
          (if supplierNeedsDeactivation records cutoffCreated cutoffRecent u then
            { u with status := "inactive", updated_at := now }
          else u) = false := by
      intro u
      by_cases hc : supplierNeedsDeactivation records cutoffCreated cutoffRecent u = true
      · rw [if_pos hc]
        simp [supplierNeedsDeactivation]
      · rw [if_neg hc]
        exact Bool.eq_false_iff.mpr hc
    refine Prod.ext ?_ ?_
    · show List.map _ (users.map _) = users.map _
      rw [List.map_map]
      apply List.map_congr_left
      intro u _
      simp only [Function.comp]
      rw [hafter u]
      simp
    · show (List.filter _ (users.map _)).length = 0
      rw [List.length_eq_zero, List.filter_eq_nil_iff]
      intro u hu
      rcases List.mem_map.mp hu with ⟨v, _, rfl⟩
      simp [hafter v]

/-- Counterexample to C8 as stated: a supplier created exactly at the
six-month cutoff instant (not strictly more than six months ago) with no
supply records is deactivated by the code, while the claim with its strict
more-than-six-months reading leaves it active. -/
theorem C8_counterexample :
    (deactivateOldSuppliers [wUser] [] 0 0 5).2 = 1 ∧
    (deactivateOldSuppliersClaimed [wUser] [] 0 0 5).2 = 0 ∧
    (deactivateOldSuppliers [wUser] [] 0 0 5).1
      = [{ wUser with status := "inactive", updated_at := 5 }] := by
  decide

/-- Witness for the amended C8: the idempotence part applied at a concrete
state. -/
theorem C8_deactivateOldSuppliers_witness :
    deactivateOldSuppliers (deactivateOldSuppliers [wUser] [] 0 0 5).1 [] 0 0 6
      = ((deactivateOldSuppliers [wUser] [] 0 0 5).1, 0) :=
  (C8_deactivateOldSuppliers [wUser] [] 0 0 5 6).2.2

theorem digitChar_toNat : ∀ m, m < 10 → (Nat.digitChar m).toNat = 48 + m := by
  decide

theorem digitChar_isDigit : ∀ m, m < 10 → (Nat.digitChar m).isDigit = true := by
  decide

theorem digitsToNat_append (l : List Char) (c : Char) :
    digitsToNat (l ++ [c]) = digitsToNat l * 10 + (c.toNat - 48) := by
  simp [digitsToNat, List.foldl_append]

theorem natDigitsAux_toNat : ∀ fuel n, n < fuel →
    digitsToNat (natDigitsAux fuel n) = n := by
  intro fuel
  induction fuel with
  | zero => intro n h; exact absurd h (Nat.not_lt_zero n)
  | succ fuel ih =>
    intro n h
    by_cases h10 : n < 10
    · simp only [natDigitsAux, if_pos h10, digitsToNat, List.foldl_cons, List.foldl_nil]
      rw [digitChar_toNat n h10]
      omega
    · simp only [natDigitsAux, if_neg h10]
      have hdiv : n / 10 < fuel := by
        have h1 : n / 10 < n := Nat.div_lt_self (by omega) (by norm_num)
        omega
      rw [digitsToNat_append, ih (n / 10) hdiv, digitChar_toNat (n % 10) (Nat.mod_lt n (by norm_num))]
      omega

theorem natDigits_toNat (n : Nat) : digitsToNat (natDigits n) = n :=
  natDigitsAux_toNat (n + 1) n (Nat.lt_succ_self n)

theorem natDigitsAux_digits : ∀ fuel n, ∀ c ∈ natDigitsAux fuel n, c.isDigit = true := by
  intro fuel
  induction fuel with
  | zero => intro n c hc; simp [natDigitsAux] at hc
  | succ fuel ih =>
    intro n c hc
    by_cases h10 : n < 10
    · simp only [natDigitsAux, if_pos h10, List.mem_singleton] at hc
      subst hc
      exact digitChar_isDigit n h10
    · simp only [natDigitsAux, if_neg h10, List.mem_append, List.mem_singleton] at hc
      rcases hc with hc | hc
      · exact ih _ c hc
      · subst hc
        exact digitChar_isDigit _ (Nat.mod_lt n (by norm_num))

theorem padZeros_digits (l : List Char) (hl : ∀ c ∈ l, c.isDigit = true) :
    ∀ c ∈ padZeros 6 l, c.isDigit = true := by
  intro c hc
  simp only [padZeros, List.mem_append, List.mem_replicate] at hc
  rcases hc with ⟨_, rfl⟩ | hc
  · decide
  · exact hl c hc

theorem padZeros_length (l : List Char) : 6 ≤ (padZeros 6 l).length := by
  simp [padZeros]
  omega

theorem digitsToNat_padZeros (l : List Char) :
    digitsToNat (padZeros 6 l) = digitsToNat l := by
  have hz : ∀ k, List.foldl (fun a c => a * 10 + (c.toNat - 48)) 0
      (List.replicate k '0') = 0 := by
    intro k
    induction k with
    | zero => rfl
    | succ k ihk => simpa [List.replicate_succ] using ihk
  simp [padZeros, digitsToNat, List.foldl_append, hz]

theorem le_foldl_max (l : List Nat) : ∀ a : Nat, a ≤ l.foldl max a := by
  induction l with
  | nil => intro a; exact le_refl a
  | cons b l ih =>
    intro a
    exact le_trans (le_max_left a b) (ih (max a b))

theorem mem_le_foldl_max (l : List Nat) : ∀ (a x : Nat), x ∈ l → x ≤ l.foldl max a := by
  induction l with
  | nil => intro a x hx; simp at hx
  | cons b l ih =>
    intro a x hx
    rcases List.mem_cons.mp hx with rfl | hx
    · exact le_trans (le_max_right a x) (le_foldl_max l (max a x))
    · exact ih (max a b) x hx

theorem supNum_le_maxSupNum (ids : List String) (s : String) (hs : s ∈ ids)
    (hc : isSUP6 s = true) : supNum s ≤ maxSupNum ids :=
  mem_le_foldl_max _ 0 _ (List.mem_map_of_mem _ (List.mem_filter.mpr ⟨hs, hc⟩))

theorem findFreeSupplierId_spec (ids : List String) :
    ∀ fuel base n, findFreeSupplierId ids base fuel = some n →
      supString n ∉ ids ∧ base ≤ n ∧ n < base + fuel ∧
      ∀ m, base ≤ m → m < n → supString m ∈ ids := by
  intro fuel
  induction fuel with
  | zero => intro base n h; simp [findFreeSupplierId] at h
  | succ fuel ih =>
    intro base n h
    by_cases hmem : supString base ∈ ids
    · rw [findFreeSupplierId, if_pos hmem] at h
      obtain ⟨h1, h2, h3, h4⟩ := ih (base + 1) n h
      refine ⟨h1, by omega, by omega, fun m hm1 hm2 => ?_⟩
      rcases eq_or_lt_of_le hm1 with rfl | hlt
      · exact hmem
      · exact h4 m (by omega) hm2
    · rw [findFreeSupplierId, if_neg hmem] at h
      obtain rfl : base = n := Option.some.inj h
      exact ⟨hmem, le_refl _, by omega, fun m hm1 hm2 => absurd hm2 (by omega)⟩

/-- C7 amended: when the probe loop finds a free number n (within ten
attempts starting at max+1), generateSupplierId returns SUP followed by n
zero-padded to AT LEAST six digits (padStart does not truncate, so seven or
more digits appear once n exceeds 999999); n is the smallest unused number
greater than max, hence numerically greater than every existing conforming
id, and the rendered digits evaluate back to n.  When all ten probes are
taken, the result is SUP followed by the last six decimal digits of the
epoch-millisecond timestamp. -/
theorem C7_generateSupplierId (ids : List String) (t : Nat) :
    (∀ n, findFreeSupplierId ids (maxSupNum ids + 1) 10 = some n →
      generateSupplierId ids t = supString n ∧
      supString n ∉ ids ∧
      maxSupNum ids < n ∧ n < maxSupNum ids + 11 ∧
      (∀ m, maxSupNum ids < m → m < n → supString m ∈ ids) ∧
      (∀ s ∈ ids, isSUP6 s = true → supNum s < n) ∧
      (generateSupplierId ids t).data = 'S' :: 'U' :: 'P' :: padZeros 6 (natDigits n) ∧
      6 ≤ (padZeros 6 (natDigits n)).length ∧
      (∀ c ∈ padZeros 6 (natDigits n), c.isDigit = true) ∧
      digitsToNat (padZeros 6 (natDigits n)) = n) ∧
    (findFreeSupplierId ids (maxSupNum ids + 1) 10 = none →
      generateSupplierId ids t
        = ⟨'S' :: 'U' :: 'P' :: (natDigits t).drop ((natDigits t).length - 6)⟩ ∧
      ∀ c ∈ (natDigits t).drop ((natDigits t).length - 6), c.isDigit = true) := by
  constructor
  · intro n hfind
    obtain ⟨h1, h2, h3, h4⟩ := findFreeSupplierId_spec ids 10 (maxSupNum ids + 1) n hfind
    have hgen : generateSupplierId ids t = supString n := by
      rw [generateSupplierId, hfind]
    refine ⟨hgen, h1, by omega, by omega,
      fun m hm1 hm2 => h4 m (by omega) hm2,
      fun s hs hc => lt_of_le_of_lt (supNum_le_maxSupNum ids s hs hc) (by omega),
      ?_, padZeros_length _, padZeros_digits _ (natDigitsAux_digits _ _), ?_⟩
    · rw [hgen]; rfl
    · rw [digitsToNat_padZeros, natDigits_toNat]
  · intro hfind
    constructor
    · rw [generateSupplierId, hfind]
    · intro c hc
      exact natDigitsAux_digits _ _ c (List.mem_of_mem_drop hc)

/-- Counterexample to C7 as stated: with the single existing id SUP999999
the generator returns SUP1000000, which has seven digits after SUP and does
not match the claimed exactly-six-digit format. -/
theorem C7_counterexample :
    generateSupplierId ["SUP999999"] 1234567 = "SUP1000000" ∧
    isSUP6 "SUP1000000" = false ∧
    isSUP6 "SUP999999" = true := by
  decide

/-- Witness for the amended C7: with existing id SUP000001 the generator
returns SUP000002, the smallest unused number above the maximum. -/
theorem C7_generateSupplierId_witness :
    generateSupplierId ["SUP000001"] 0 = supString 2 ∧
    supString 2 ∉ ["SUP000001"] ∧
    maxSupNum ["SUP000001"] < 2 := by
  have h := (C7_generateSupplierId ["SUP000001"] 0).1 2 (by decide)
  exact ⟨h.1, h.2.1, h.2.2.1⟩

theorem mem_of_applyLimit (e : LedgerEntry) (lim : Option Nat)
    (l : List LedgerEntry) (hmem : e ∈ applyLimit lim l) : e ∈ l := by
  cases lim with
  | none => exact hmem
  | some k => exact List.mem_of_mem_take hmem

/-- C3: whenever some payments row references a supply record, the combined
output of findAllPayments contains no synthetic source supply_record entry
for that record, for any filter set; hence a record never appears both as a
real payment row and as a synthetic pending entry. -/
theorem C3_findAllPayments_no_double (payments : List Payment)
    (records : List SupplyRecord) (users : List User) (f : Filters)
    (p : Payment) (hp : p ∈ payments) :
    (findAllPayments payments records users f).all
      (fun e => !(e.source == "supply_record" &&
                  e.supply_record_id == p.supply_record_id)) = true := by
  rw [List.all_eq_true]
  intro e he
  simp only [findAllPayments, sortEntriesDesc, sortPaymentsDesc, sortSupplyDesc] at he
  have h1 := mem_of_applyLimit e _ _ he
  have h2 := (List.perm_insertionSort _ _).mem_iff.mp h1
  rcases List.mem_append.mp h2 with hL | hR
  · have hL' := mem_of_applyLimit e _ _ hL
    rcases List.mem_map.mp hL' with ⟨p', _, rfl⟩
    simp [paymentEntry]
  · have hR' := mem_of_applyLimit e _ _ hR
    rcases List.mem_map.mp hR' with ⟨sr, hsr, rfl⟩
    have hsr' := (List.mem_filter.mp ((List.perm_insertionSort _ _).mem_iff.mp hsr)).2
    rw [Bool.and_eq_true] at hsr'
    have hbase := hsr'.1
    simp only [srPendingBase, Bool.and_eq_true, Bool.not_eq_true'] at hbase
    have hany : (payments.any (fun q => q.supply_record_id == sr.id)) = false := hbase.2
    have hne : p.supply_record_id ≠ sr.id := by
      have h4 := List.any_eq_false.mp hany p hp
      simpa using h4
    simp [srPendingEntry]
    exact Ne.symm hne

/-- Witness for C3: the fixture payment references supply record 1, and the
combined listing over that state carries no synthetic entry for it. -/
theorem C3_findAllPayments_no_double_witness :
    (findAllPayments [wPay] [wRec] [] noFilters).all
      (fun e => !(e.source == "supply_record" &&
                  e.supply_record_id == wPay.supply_record_id)) = true :=
  C3_findAllPayments_no_double [wPay] [wRec] [] noFilters wPay (by simp)

theorem sum_filter_not_add_sum_filter (l : List SupplyRecord)
    (p : SupplyRecord → Bool) :
    ((l.filter (fun a => !(p a))).map SupplyRecord.total_payment).sum
      + ((l.filter p).map SupplyRecord.total_payment).sum
      = (l.map SupplyRecord.total_payment).sum := by
  induction l with
  | nil => simp
  | cons a l ih =>
    by_cases hp : p a = true
    · simp only [List.filter_cons, hp, Bool.not_true, if_false, if_true,
        Bool.false_eq_true, List.map_cons, List.sum_cons]
      linarith
    · have hp' : p a = false := Bool.eq_false_iff.mpr hp
      simp only [List.filter_cons, hp', Bool.not_false, if_true, if_false,
        Bool.false_eq_true, List.map_cons, List.sum_cons]
      linarith

/-- C4 amended: the completed total of getPaymentStatistics equals the sum
of completed payments-row amounts plus the total_payment of ALL paid supply
records passing the filters, which decomposes as the amount the claim
describes (paid records with no referencing payments row) PLUS the overlap
(paid records that do have a referencing payments row); a paid supply record
with a real payments row is therefore counted twice, not once. -/
theorem C4_getPaymentStatistics (payments : List Payment)
    (records : List SupplyRecord) (f : Filters) :
    (getPaymentStatistics payments records f).total_completed_amount
      = (((payments.filter (paymentStatMatches f)).filter
            (fun p => p.payment_status == "completed")).map Payment.amount).sum
        + ((((records.filter (srStatMatches f)).filter
              (fun sr => sr.payment_status == "paid")).filter
                (fun sr => !(payments.any (fun p => p.supply_record_id == sr.id)))).map
            SupplyRecord.total_payment).sum
        + ((((records.filter (srStatMatches f)).filter
              (fun sr => sr.payment_status == "paid")).filter
                (fun sr => payments.any (fun p => p.supply_record_id == sr.id))).map
            SupplyRecord.total_payment).sum := by
  have hpart := sum_filter_not_add_sum_filter
    ((records.filter (srStatMatches f)).filter (fun sr => sr.payment_status == "paid"))
    (fun sr => payments.any (fun p => p.supply_record_id == sr.id))
  simp only [getPaymentStatistics]
  linarith

/-- Counterexample to C4 as stated: one paid supply record of total 100 with
a completed payments row of 100 referencing it yields a completed total of
200 from the code, while the claimed formula (completed payments plus paid
records without a payments row) gives 100. -/
theorem C4_counterexample :
    (getPaymentStatistics [wPay] [wRecPaid] noFilters).total_completed_amount = 200 ∧
    (([wPay].filter (fun p => p.payment_status == "completed")).map Payment.amount).sum
      + (([wRecPaid].filter (fun sr => sr.payment_status == "paid" &&
            !([wPay].any (fun p => p.supply_record_id == sr.id)))).map
          SupplyRecord.total_payment).sum = 100 ∧
    (200 : ℚ) ≠ 100 := by
  refine ⟨?_, ?_, by norm_num⟩
  · norm_num [getPaymentStatistics, paymentStatMatches, srStatMatches, noFilters,
      wPay, wRecPaid]
  · norm_num [wPay, wRecPaid]

theorem generateSupplierId_ne_empty (ids : List String) (t : Nat) :
    generateSupplierId ids t ≠ "" := by
  intro hEq
  rw [generateSupplierId] at hEq
  rcases h : findFreeSupplierId ids (maxSupNum ids + 1) 10 with _ | n <;>
      rw [h] at hEq <;> have hd := congrArg String.data hEq <;>
    simp [supString] at hd

theorem genSupplyIdAux_shape (existing : List String) (base : String) :
    ∀ fuel k s, genSupplyIdAux existing base k fuel = some s →
      (∃ j, s = supplyIdCandidate base j) ∧ s ∉ existing := by
  intro fuel
  induction fuel with
  | zero => intro k s h; simp [genSupplyIdAux] at h
  | succ fuel ih =>
    intro k s h
    by_cases hmem : supplyIdCandidate base k ∈ existing
    · rw [genSupplyIdAux, if_pos hmem] at h
      exact ih (k + 1) s h
    · rw [genSupplyIdAux, if_neg hmem] at h
      obtain rfl := Option.some.inj h
      exact ⟨⟨k, rfl⟩, hmem⟩

theorem supplyIdCandidate_ne_empty (base : String) (hbase : base ≠ "") :
    ∀ k, supplyIdCandidate base k ≠ "" := by
  intro k
  cases k with
  | zero => exact hbase
  | succ k =>
    intro hEq
    have hl := congrArg String.length hEq
    rw [supplyIdCandidate, String.length_append, String.length_append] at hl
    have h1 : (1 : Nat) ≤ ("-" : String).length := by decide
    have h0 : ("" : String).length = 0 := rfl
    omega

theorem generateSupplyId_spec (existing : List String) (base : String)
    (hbase : base ≠ "") (s : String)
    (h : generateSupplyId existing base = some s) :
    s ∉ existing ∧ s ≠ "" := by
  obtain ⟨⟨j, rfl⟩, hnot⟩ := genSupplyIdAux_shape existing base _ 0 s h
  exact ⟨hnot, supplyIdCandidate_ne_empty base hbase j⟩

theorem findAllRepair_cons_empty (t : Nat) (tnow : Int) (table : List User)
    (row : User) (rows : List User) (h : row.supplier_id = "") :
    findAllRepair t tnow table (row :: rows)
      = ((findAllRepair t tnow
            (table.map (fun u =>
              if u.id == row.id && u.role == "supplier" then
                { u with
                  supplier_id := generateSupplierId (supplierIdsOf table) t,
                  updated_at := tnow }
              else u)) rows).1,
         maskUser { row with supplier_id := generateSupplierId (supplierIdsOf table) t }
           :: (findAllRepair t tnow
                (table.map (fun u =>
                  if u.id == row.id && u.role == "supplier" then
                    { u with
                      supplier_id := generateSupplierId (supplierIdsOf table) t,
                      updated_at := tnow }
                  else u)) rows).2) := by
  simp [findAllRepair, h]

theorem findAllRepair_cons_nonempty (t : Nat) (tnow : Int) (table : List User)
    (row : User) (rows : List User) (h : row.supplier_id ≠ "") :
    findAllRepair t tnow table (row :: rows)
      = ((findAllRepair t tnow table rows).1,
         maskUser row :: (findAllRepair t tnow table rows).2) := by
  simp [findAllRepair, h]

theorem findAllRepair_spec (t : Nat) (tnow : Int) :
    ∀ (rows table : List User),
      (table.map User.id).Nodup →
      (∀ row ∈ rows, row ∈ table) →
      (rows.map User.id).Nodup →
      (∀ row ∈ rows, row.role = "supplier") →
      (List.Forall₂ (fun row row' =>
          (row.supplier_id ≠ "" → row' = maskUser row) ∧
          (row.supplier_id = "" → ∃ nid, nid ≠ "" ∧
            row' = maskUser { row with supplier_id := nid } ∧
            { row with supplier_id := nid, updated_at := tnow }
              ∈ (findAllRepair t tnow table rows).1))
        rows (findAllRepair t tnow table rows).2) ∧
      (∀ u ∈ table, u.role ≠ "supplier" ∨ u.supplier_id ≠ "" →
        u ∈ (findAllRepair t tnow table rows).1) ∧
      (findAllRepair t tnow table rows).1.map User.id = table.map User.id := by
  intro rows
  induction rows with
  | nil =>
    intro table _ _ _ _
    exact ⟨List.Forall₂.nil, fun u hu _ => hu, rfl⟩
  | cons row rows ih =>
    intro table hnodup hsub hnodupR hrole
    have hrowmem : row ∈ table := hsub row (List.mem_cons_self _ _)
    have hrowrole : row.role = "supplier" := hrole row (List.mem_cons_self _ _)
    have hinj := List.inj_on_of_nodup_map hnodup
    by_cases hempty : row.supplier_id = ""
    · rw [findAllRepair_cons_empty t tnow table row rows hempty]
      set newId := generateSupplierId (supplierIdsOf table) t with hnewId
      set table' := table.map (fun u =>
        if u.id == row.id && u.role == "supplier" then
          { u with supplier_id := newId, updated_at := tnow }
        else u) with htable'
      have hstep_frame : ∀ u : User, u.id ≠ row.id →
          (if u.id == row.id && u.role == "supplier" then
            { u with supplier_id := newId, updated_at := tnow } else u) = u := by
        intro u hne
        have hb : (u.id == row.id) = false := beq_eq_false_iff_ne.mpr hne
        simp [hb]
      have hids' : table'.map User.id = table.map User.id := by
        rw [htable', List.map_map]
        apply List.map_congr_left
        intro u _
        simp only [Function.comp]
        split <;> rfl
      have hnodup' : (table'.map User.id).Nodup := by rw [hids']; exact hnodup
      have hsub' : ∀ r2 ∈ rows, r2 ∈ table' := by
        intro r2 hr2
        have hr2t := hsub r2 (List.mem_cons_of_mem _ hr2)
        have hne : r2.id ≠ row.id := by
          intro hEq
          exact (List.nodup_cons.mp hnodupR).1
            (hEq ▸ List.mem_map_of_mem User.id hr2)
        rw [htable']
        have := hstep_frame r2 hne
        exact this ▸ List.mem_map_of_mem _ hr2t
      have hupd : { row with supplier_id := newId, updated_at := tnow } ∈ table' := by
        rw [htable']
        have hrw : (if row.id == row.id && row.role == "supplier" then
            { row with supplier_id := newId, updated_at := tnow } else row)
            = { row with supplier_id := newId, updated_at := tnow } := by
          simp [hrowrole]
        exact hrw ▸ List.mem_map_of_mem _ hrowmem
      obtain ⟨ihF, ihP, ihI⟩ := ih table' hnodup' hsub'
        (List.nodup_cons.mp hnodupR).2
        (fun r hr => hrole r (List.mem_cons_of_mem _ hr))
      refine ⟨List.Forall₂.cons ⟨fun hne => absurd hempty hne, fun _ => ?_⟩ ?_,
        ?_, ?_⟩
      · refine ⟨newId, generateSupplierId_ne_empty _ _, rfl, ?_⟩
        exact ihP _ hupd (Or.inr (generateSupplierId_ne_empty _ _))
      · refine ihF.imp ?_
        intro a b hab
        exact hab
      · intro u hu hcase
        have hne : u.id ≠ row.id := by
          intro hEq
          have : u = row := hinj hu hrowmem hEq
          subst this
          rcases hcase with h | h
          · exact h hrowrole
          · exact h hempty
        have hu' : u ∈ table' := by
          rw [htable']
          exact hstep_frame u hne ▸ List.mem_map_of_mem _ hu
        exact ihP u hu' hcase
      · rw [ihI, hids']
    · rw [findAllRepair_cons_nonempty t tnow table row rows hempty]
      obtain ⟨ihF, ihP, ihI⟩ := ih table hnodup
        (fun r hr => hsub r (List.mem_cons_of_mem _ hr))
        (List.nodup_cons.mp hnodupR).2
        (fun r hr => hrole r (List.mem_cons_of_mem _ hr))
      exact ⟨List.Forall₂.cons ⟨fun _ => rfl, fun hEq => absurd hEq hempty⟩ ihF,
        ihP, ihI⟩

theorem findAllSupplyRepair_spec (base : String) (tnow : Int) (hbase : base ≠ "") :
    ∀ (rows table : List SupplyRecord),
      (table.map SupplyRecord.id).Nodup →
      (∀ row ∈ rows, row ∈ table) →
      (rows.map SupplyRecord.id).Nodup →
      ∀ tbl out, findAllSupplyRepair base tnow table rows = some (tbl, out) →
        List.Forall₂ (fun row row' =>
            (row.supply_id ≠ "" → row' = row) ∧
            (row.supply_id = "" → ∃ nid, nid ≠ "" ∧
              row' = { row with supply_id := nid } ∧
              { row with supply_id := nid, updated_at := tnow } ∈ tbl))
          rows out ∧
        (∀ r ∈ table, r.supply_id ≠ "" → r ∈ tbl) ∧
        tbl.map SupplyRecord.id = table.map SupplyRecord.id := by
  intro rows
  induction rows with
  | nil =>
    intro table _ _ _ tbl out h
    simp only [findAllSupplyRepair, Option.some.injEq] at h
    obtain ⟨h1, h2⟩ := Prod.mk.injEq _ _ _ _ ▸ h
    subst h1; subst h2
    exact ⟨List.Forall₂.nil, fun r hr _ => hr, rfl⟩
  | cons row rows ih =>
    intro table hnodup hsub hnodupR tbl out h
    have hrowmem : row ∈ table := hsub row (List.mem_cons_self _ _)
    have hinj := List.inj_on_of_nodup_map hnodup
    by_cases hempty : row.supply_id = ""
    · have hbeq : (row.supply_id == "") = true := beq_iff_eq.mpr hempty
      rw [findAllSupplyRepair, if_pos hbeq] at h
      cases hgen : generateSupplyId (supplyIdsOf table) base with
      | none => rw [hgen] at h; exact absurd h (by simp)
      | some newId =>
        rw [hgen] at h
        dsimp only at h
        obtain ⟨hgen1, hgen2⟩ := generateSupplyId_spec _ base hbase newId hgen
        cases hrec : findAllSupplyRepair base tnow
            (table.map (fun r =>
              if r.id == row.id then { r with supply_id := newId, updated_at := tnow }
              else r)) rows with
        | none => rw [hrec] at h; exact absurd h (by simp)
        | some rest =>
          obtain ⟨tblR, outR⟩ := rest
          rw [hrec] at h
          simp only [Option.some.injEq] at h
          obtain ⟨h1, h2⟩ := Prod.mk.injEq _ _ _ _ ▸ h
          subst h1; subst h2
          have hstep_frame : ∀ r : SupplyRecord, r.id ≠ row.id →
              (if r.id == row.id then
                { r with supply_id := newId, updated_at := tnow } else r) = r := by
            intro r hne
            rw [if_neg]
            simp [hne]
          have hids' : (table.map (fun r =>
              if r.id == row.id then { r with supply_id := newId, updated_at := tnow }
              else r)).map SupplyRecord.id = table.map SupplyRecord.id := by
            rw [List.map_map]
            apply List.map_congr_left
            intro r _
            simp only [Function.comp]
            split <;> rfl
          have hnodup' : ((table.map (fun r =>
              if r.id == row.id then { r with supply_id := newId, updated_at := tnow }
              else r)).map SupplyRecord.id).Nodup := by
            rw [hids']; exact hnodup
          have hsub' : ∀ r2 ∈ rows, r2 ∈ table.map (fun r =>
              if r.id == row.id then { r with supply_id := newId, updated_at := tnow }
              else r) := by
            intro r2 hr2
            have hr2t := hsub r2 (List.mem_cons_of_mem _ hr2)
            have hne : r2.id ≠ row.id := by
              intro hEq
              exact (List.nodup_cons.mp hnodupR).1
                (hEq ▸ List.mem_map_of_mem SupplyRecord.id hr2)
            exact hstep_frame r2 hne ▸ List.mem_map_of_mem _ hr2t
          have hupd : { row with supply_id := newId, updated_at := tnow }
              ∈ table.map (fun r =>
                if r.id == row.id then { r with supply_id := newId, updated_at := tnow }
                else r) := by
            have hrw : (if row.id == row.id then
                { row with supply_id := newId, updated_at := tnow } else row)
                = { row with supply_id := newId, updated_at := tnow } := by simp
            exact hrw ▸ List.mem_map_of_mem _ hrowmem
          obtain ⟨ihF, ihP, ihI⟩ := ih _ hnodup' hsub'
            (List.nodup_cons.mp hnodupR).2 tblR outR hrec
          refine ⟨List.Forall₂.cons
            ⟨fun hne => absurd hempty hne,
             fun _ => ⟨newId, hgen2, rfl, ihP _ hupd hgen2⟩⟩ ihF, ?_, ?_⟩
          · intro r hr hne
            have hneid : r.id ≠ row.id := by
              intro hEq
              have : r = row := hinj hr hrowmem hEq
              subst this
              exact hne hempty
            exact ihP r (hstep_frame r hneid ▸ List.mem_map_of_mem _ hr) hne
          · rw [ihI, hids']
    · have hbeq : (row.supply_id == "") = false := by
        simpa using hempty
      rw [findAllSupplyRepair, if_neg (by simp [hbeq])] at h
      cases hrec : findAllSupplyRepair base tnow table rows with
      | none => rw [hrec] at h; exact absurd h (by simp)
      | some rest =>
        obtain ⟨tblR, outR⟩ := rest
        rw [hrec] at h
        simp only [Option.some.injEq] at h
        obtain ⟨h1, h2⟩ := Prod.mk.injEq _ _ _ _ ▸ h
        subst h1; subst h2
        obtain ⟨ihF, ihP, ihI⟩ := ih table hnodup
          (fun r hr => hsub r (List.mem_cons_of_mem _ hr))
          (List.nodup_cons.mp hnodupR).2 tblR outR hrec
        exact ⟨List.Forall₂.cons
          ⟨fun _ => rfl, fun hEq => absurd hEq hempty⟩ ihF, ihP, ihI⟩

/-- C9: the two listing operations are not read-only.  SupplierModel.findAll
returns, for every selected supplier row whose supplier_id is empty, a row
carrying a freshly generated nonempty id, and writes that id (with the
auto-advanced updated_at) to the users table before returning; rows that
already carry a supplier_id come back masked but their user rows are not
written.  findAllSupplyRecords does the same for empty supply_id values in
supply_records, under the hypothesis that the generation loop terminates
(result some).  Both table states retain exactly the original row ids. -/
theorem C9_listing_repairs (users : List User) (t : Nat) (tnow : Int)
    (recs : List SupplyRecord) (base : String)
    (hU : (users.map User.id).Nodup) (hR : (recs.map SupplyRecord.id).Nodup)
    (hbase : base ≠ "") :
    (List.Forall₂ (fun row row' =>
        (row.supplier_id ≠ "" → row' = maskUser row) ∧
        (row.supplier_id = "" → ∃ nid, nid ≠ "" ∧
          row' = maskUser { row with supplier_id := nid } ∧
          { row with supplier_id := nid, updated_at := tnow }
            ∈ (findAll users t tnow).1))
      (sortUsersDesc (users.filter (fun u => u.role == "supplier")))
      (findAll users t tnow).2 ∧
     ∀ u ∈ users, u.role ≠ "supplier" ∨ u.supplier_id ≠ "" →
       u ∈ (findAll users t tnow).1) ∧
    (∀ tbl out, findAllSupplyRecords recs base tnow = some (tbl, out) →
      List.Forall₂ (fun row row' =>
          (row.supply_id ≠ "" → row' = row) ∧
          (row.supply_id = "" → ∃ nid, nid ≠ "" ∧
            row' = { row with supply_id := nid } ∧
            { row with supply_id := nid, updated_at := tnow } ∈ tbl))
        (sortSupplyDesc recs) out ∧
      ∀ r ∈ recs, r.supply_id ≠ "" → r ∈ tbl) := by
  constructor
  · have hperm : (sortUsersDesc (users.filter (fun u => u.role == "supplier"))).Perm
        (users.filter (fun u => u.role == "supplier")) :=
      List.perm_insertionSort _ _
    have hsub : ∀ row ∈ sortUsersDesc (users.filter (fun u => u.role == "supplier")),
        row ∈ users := fun row hr =>
      List.mem_of_mem_filter (hperm.mem_iff.mp hr)
    have hnodupF : ((users.filter (fun u => u.role == "supplier")).map User.id).Nodup :=
      List.Nodup.sublist (List.Sublist.map _ (List.filter_sublist users)) hU
    have hnodupR : ((sortUsersDesc (users.filter (fun u => u.role == "supplier"))).map
        User.id).Nodup := ((hperm.map User.id).nodup_iff).mpr hnodupF
    have hrole : ∀ row ∈ sortUsersDesc (users.filter (fun u => u.role == "supplier")),
        row.role = "supplier" := by
      intro row hr
      have := (List.mem_filter.mp (hperm.mem_iff.mp hr)).2
      simpa using this
    obtain ⟨hF, hP, _⟩ := findAllRepair_spec t tnow
      (sortUsersDesc (users.filter (fun u => u.role == "supplier"))) users
      hU hsub hnodupR hrole
    exact ⟨hF, hP⟩
  · intro tbl out h
    have hperm : (sortSupplyDesc recs).Perm recs := List.perm_insertionSort _ _
    have hsub : ∀ row ∈ sortSupplyDesc recs, row ∈ recs :=
      fun row hr => hperm.mem_iff.mp hr
    have hnodupR : ((sortSupplyDesc recs).map SupplyRecord.id).Nodup :=
      ((hperm.map SupplyRecord.id).nodup_iff).mpr hR
    obtain ⟨hF, hP, _⟩ := findAllSupplyRepair_spec base tnow hbase
      (sortSupplyDesc recs) recs hR hsub hnodupR tbl out h
    exact ⟨hF, hP⟩

/-- Witness for C9 at a concrete state: one supplier without an id and one
with an id; the repaired listing relation holds for the returned rows. -/
theorem C9_listing_repairs_witness :
    List.Forall₂ (fun row row' =>
        (row.supplier_id ≠ "" → row' = maskUser row) ∧
        (row.supplier_id = "" → ∃ nid, nid ≠ "" ∧
          row' = maskUser { row with supplier_id := nid } ∧
          { row with supplier_id := nid, updated_at := 99 }
            ∈ (findAll [wUserNoId, wUser] 7 99).1))
      (sortUsersDesc ([wUserNoId, wUser].filter (fun u => u.role == "supplier")))
      (findAll [wUserNoId, wUser] 7 99).2 :=
  ((C9_listing_repairs [wUserNoId, wUser] 7 99 [wRecNoId] "SUP-20240102-0900"
      (by decide) (by decide) (by decide)).1).1

end BrewOps
